import Mathlib

/-!
Verification of the run-scheduler (`RunDialog` in
`pipeline_functions/function_utils.py`) and the object/path-resolution layer
(`pipeline_functions/loading.py`) of the mne_pipeline_hd repository.

The Python code is shallowly embedded: Python dictionaries become association
lists with insert-overwrites-in-place semantics (`dictInsert`/`dictGet`),
the mutable `RunDialog` state becomes the record `SchedState` transformed by
pure functions, and the event-driven recursion
(`start_thread` → worker → `thread_finished`/`thread_error` → `start_thread`)
becomes the structurally recursive interpreter `run_from` together with the
driver `drive` that models pressing Continue after each pause.
-/

namespace MnePipeline

/-- Python dict assignment `d[k] = v`: overwrites the binding in place if the
key is present, otherwise appends it at the end (insertion order). -/
def dictInsert {α : Type} (k : String) (v : α) : List (String × α) → List (String × α)
  | [] => [(k, v)]
  | (k', v') :: rest => if k' = k then (k, v) :: rest else (k', v') :: dictInsert k v rest

/-- Python dict lookup `d[k]` (as an `Option`). -/
def dictGet {α : Type} (k : String) : List (String × α) → Option α
  | [] => none
  | (k', v') :: rest => if k' = k then some v' else dictGet k rest

theorem dictGet_dictInsert_self {α : Type} (k : String) (v : α) (d : List (String × α)) :
    dictGet k (dictInsert k v d) = some v := by
  induction d with
  | nil => simp [dictInsert, dictGet]
  | cons hd tl ih =>
    obtain ⟨k', v'⟩ := hd
    by_cases h : k' = k
    · simp [dictInsert, dictGet, h]
    · simp [dictInsert, dictGet, h, ih]

theorem dictGet_dictInsert_ne {α : Type} {k k' : String} (v : α) (d : List (String × α))
    (h : k' ≠ k) : dictGet k' (dictInsert k v d) = dictGet k' d := by
  induction d with
  | nil => simp [dictInsert, dictGet, h, Ne.symm h]
  | cons hd tl ih =>
    obtain ⟨k₀, v₀⟩ := hd
    by_cases h₀ : k₀ = k
    · subst h₀
      simp [dictInsert, dictGet, Ne.symm h, h]
    · by_cases h₁ : k₀ = k'
      · subst h₁
        simp [dictInsert, dictGet, h₀]
      · simp [dictInsert, dictGet, h₀, h₁, ih]

/-- Every value of `dictInsert k v d` is either `v` or a value of `d`. -/
theorem mem_dictInsert {α : Type} {k : String} {v : α} {d : List (String × α)}
    {p : String × α} (hp : p ∈ dictInsert k v d) : p = (k, v) ∨ p ∈ d := by
  induction d with
  | nil => simpa [dictInsert] using hp
  | cons hd tl ih =>
    obtain ⟨k', v'⟩ := hd
    by_cases h : k' = k
    · simp only [dictInsert, if_pos h] at hp
      rcases List.mem_cons.mp hp with h' | h'
      · exact Or.inl h'
      · exact Or.inr (List.mem_cons_of_mem _ h')
    · simp only [dictInsert, if_neg h] at hp
      rcases List.mem_cons.mp hp with h' | h'
      · exact Or.inr (h' ▸ List.mem_cons_self _ _)
      · rcases ih h' with h'' | h''
        · exact Or.inl h''
        · exact Or.inr (List.mem_cons_of_mem _ h'')

/-! ## `RunDialog.init_lists` (function_utils.py, lines 145-184) -/

/-- One value of the `all_objects` ordered dict built by `init_lists`:
`{'type': ..., 'functions': {f: status}, 'status': status}`. -/
structure ObjEntry where
  type : String
  functions : List (String × Nat)
  status : Nat
deriving Repr, DecidableEq

/-- The two mutable collections that `init_lists` fills:
`self.all_objects` (an `OrderedDict`) and `self.all_steps` (a list). -/
structure RunLists where
  all_objects : List (String × ObjEntry)
  all_steps : List (String × String)
deriving Repr, DecidableEq

/-- The inputs that `init_lists` reads from `self.mw.ct` and `self.mw.ct.pr`:
the function tables' indices, the selected functions, and the selected
objects of each type. -/
structure InitInput where
  fsmri_funcs : List String
  meeg_funcs : List String
  group_funcs : List String
  other_funcs : List String
  sel_functions : List String
  sel_fsmri : List String
  sel_meeg : List String
  sel_groups : List String
deriving Repr

/-- `[mf for mf in self.mw.ct.fsmri_funcs.index if mf in self.mw.ct.pr.sel_functions]` -/
def sel_fsmri_funcs (i : InitInput) : List String :=
  i.fsmri_funcs.filter (fun mf => i.sel_functions.contains mf)

def sel_meeg_funcs (i : InitInput) : List String :=
  i.meeg_funcs.filter (fun ff => i.sel_functions.contains ff)

def sel_group_funcs (i : InitInput) : List String :=
  i.group_funcs.filter (fun gf => i.sel_functions.contains gf)

def sel_other_funcs (i : InitInput) : List String :=
  i.other_funcs.filter (fun of => i.sel_functions.contains of)

/-- The dict comprehension `{x: 1 for x in funcs}`. -/
def funcStatusDict (funcs : List String) : List (String × Nat) :=
  funcs.foldl (fun d f => dictInsert f 1 d) []

/-- One of the three symmetric blocks of `init_lists`: guarded by
`len(objs) * len(funcs) != 0`, it inserts every selected object with status 1
and its pending function dict into `all_objects` and appends one step per
(object, function) pair to `all_steps`. -/
def addTypeBlock (typ : String) (objs funcs : List String) (st : RunLists) : RunLists :=
  if objs.length * funcs.length ≠ 0 then
    objs.foldl
      (fun st obj =>
        { all_objects :=
            dictInsert obj { type := typ, functions := funcStatusDict funcs, status := 1 }
              st.all_objects
          all_steps := st.all_steps ++ funcs.map (fun f => (obj, f)) })
      st
  else st

/-- `RunDialog.init_lists`: fills `all_objects` and `all_steps` from the
selected objects and functions, block by block (FSMRI, MEEG, Group, Other). -/
def init_lists (i : InitInput) : RunLists :=
  let st0 : RunLists := ⟨[], []⟩
  let st1 := addTypeBlock "FSMRI" i.sel_fsmri (sel_fsmri_funcs i) st0
  let st2 := addTypeBlock "MEEG" i.sel_meeg (sel_meeg_funcs i) st1
  let st3 := addTypeBlock "Group" i.sel_groups (sel_group_funcs i) st2
  if (sel_other_funcs i).length ≠ 0 then
    { all_objects :=
        dictInsert "" { type := "Other", functions := funcStatusDict (sel_other_funcs i),
                        status := 1 } st3.all_objects
      all_steps := st3.all_steps ++ (sel_other_funcs i).map (fun f => ("", f)) }
  else st3

/-- Spec-side description of a cross-product block of the step queue:
for each object, one step per selected function of its type, in order. -/
def crossSteps (objs funcs : List String) : List (String × String) :=
  objs.flatMap (fun obj => funcs.map (fun f => (obj, f)))

theorem addTypeBlock_all_steps (typ : String) (objs funcs : List String) (st : RunLists) :
    (addTypeBlock typ objs funcs st).all_steps = st.all_steps ++ crossSteps objs funcs := by
  unfold addTypeBlock
  by_cases h : objs.length * funcs.length ≠ 0
  · rw [if_pos h]
    clear h
    induction objs generalizing st with
    | nil => simp [crossSteps]
    | cons o rest ih =>
      simp only [List.foldl_cons]
      rw [ih]
      simp [crossSteps, List.append_assoc]
  · rw [if_neg h]
    push_neg at h
    rcases Nat.mul_eq_zero.mp h with h0 | h0
    · rw [List.length_eq_zero.mp h0]
      simp [crossSteps]
    · rw [List.length_eq_zero.mp h0]
      simp [crossSteps]

/-- Every status stored in `funcStatusDict` is 1 (pending). -/
theorem funcStatusDict_pending (funcs : List String) :
    ∀ q ∈ funcStatusDict funcs, q.2 = 1 := by
  suffices h : ∀ (d : List (String × Nat)), (∀ q ∈ d, q.2 = 1) →
      ∀ q ∈ funcs.foldl (fun d f => dictInsert f 1 d) d, q.2 = 1 by
    exact h [] (by simp)
  induction funcs with
  | nil => intro d hd; simpa using hd
  | cons f rest ih =>
    intro d hd
    simp only [List.foldl_cons]
    refine ih (dictInsert f 1 d) ?_
    intro q hq
    rcases mem_dictInsert hq with h | h
    · rw [h]
    · exact hd q h

/-- Pending-everywhere invariant on `all_objects`. -/
def allPending (objs : List (String × ObjEntry)) : Prop :=
  ∀ p ∈ objs, p.2.status = 1 ∧ ∀ q ∈ p.2.functions, q.2 = 1

theorem allPending_dictInsert {objs : List (String × ObjEntry)} {k : String} {e : ObjEntry}
    (hobjs : allPending objs) (hst : e.status = 1) (hfn : ∀ q ∈ e.functions, q.2 = 1) :
    allPending (dictInsert k e objs) := by
  intro p hp
  rcases mem_dictInsert hp with h | h
  · rw [h]; exact ⟨hst, hfn⟩
  · exact hobjs p h

theorem addTypeBlock_allPending (typ : String) (objs funcs : List String) (st : RunLists)
    (h : allPending st.all_objects) :
    allPending (addTypeBlock typ objs funcs st).all_objects := by
  unfold addTypeBlock
  by_cases hg : objs.length * funcs.length ≠ 0
  · rw [if_pos hg]
    clear hg
    induction objs generalizing st with
    | nil => simpa using h
    | cons o rest ih =>
      simp only [List.foldl_cons]
      exact ih _ (allPending_dictInsert h rfl (funcStatusDict_pending funcs))
  · rw [if_neg hg]; exact h

/-- After `init_lists`, every object and every function status is 1 (pending). -/
theorem init_lists_allPending (i : InitInput) : allPending (init_lists i).all_objects := by
  unfold init_lists
  have h0 : allPending (⟨[], []⟩ : RunLists).all_objects := by intro p hp; simp at hp
  have h1 := addTypeBlock_allPending "FSMRI" i.sel_fsmri (sel_fsmri_funcs i) _ h0
  have h2 := addTypeBlock_allPending "MEEG" i.sel_meeg (sel_meeg_funcs i) _ h1
  have h3 := addTypeBlock_allPending "Group" i.sel_groups (sel_group_funcs i) _ h2
  by_cases hg : (sel_other_funcs i).length ≠ 0
  · simp only [if_pos hg]
    exact allPending_dictInsert h3 rfl (funcStatusDict_pending _)
  · simp only [if_neg hg]
    exact h3

/-- The step queue built by `init_lists`, described as the concatenation of the
four cross-product blocks. -/
theorem init_lists_all_steps (i : InitInput) :
    (init_lists i).all_steps =
      crossSteps i.sel_fsmri (sel_fsmri_funcs i)
        ++ crossSteps i.sel_meeg (sel_meeg_funcs i)
        ++ crossSteps i.sel_groups (sel_group_funcs i)
        ++ (sel_other_funcs i).map (fun f => ("", f)) := by
  unfold init_lists
  by_cases hg : (sel_other_funcs i).length ≠ 0
  · simp only [if_pos hg, addTypeBlock_all_steps]
    simp [List.append_assoc]
  · simp only [if_neg hg]
    push_neg at hg
    rw [List.length_eq_zero.mp hg]
    simp only [addTypeBlock_all_steps]
    simp [List.append_assoc]

/-- C1: the step queue assembled by `RunDialog.init_lists` is exactly the
cross-product of selected objects and the selected functions of their type —
FSMRI block, then MEEG block, then Group block, then one step per selected
"other" function under the blank object name — and every object and every
(object, function) pair starts with status 1 (pending). -/
theorem C1_init_lists_cross_product_pending (i : InitInput) :
    (init_lists i).all_steps =
      crossSteps i.sel_fsmri (sel_fsmri_funcs i)
        ++ crossSteps i.sel_meeg (sel_meeg_funcs i)
        ++ crossSteps i.sel_groups (sel_group_funcs i)
        ++ (sel_other_funcs i).map (fun f => ("", f))
    ∧ allPending (init_lists i).all_objects :=
  ⟨init_lists_all_steps i, init_lists_allPending i⟩

/-! ## The scheduler state machine (`RunDialog`, function_utils.py lines 112-432)

The event-driven recursion `start_thread` → (function runs, blocking or in a
worker) → `thread_finished`/`thread_error` → `start_thread` is embedded as the
structurally recursive interpreter `run_from`.  The GUI environment is the
record `RunEnv`: `outcome` says whether a step's function raises (the worker
delivers exactly one of the error/finished callbacks), `pauseDuring` says
whether the user presses Pause while that step's function is executing, and
`flags`/`show_plots` give the `pd_funcs` columns and setting consulted by the
dispatch decision of `start_thread`. -/

/-- The `mayavi` and `matplotlib` columns of `ct.pd_funcs` for one function. -/
structure FuncFlags where
  mayavi : Bool
  matplotlib : Bool
deriving Repr, DecidableEq

/-- The environment of one run: function flags, the `show_plots` setting, each
step's outcome (`none` = the function returns, `some msg` = it raises), and
the user's pause behaviour. -/
structure RunEnv where
  flags : String → FuncFlags
  show_plots : Bool
  outcome : String → String → Option String
  pauseDuring : String → String → Bool

/-- Whether a function is run blocking on the GUI thread or handed to the
thread pool. -/
inductive DispatchMode where
  | blocking
  | threaded
deriving Repr, DecidableEq

/-- The dispatch condition of `start_thread` (lines 326-341):
`pd_funcs.loc[f, 'mayavi'] or pd_funcs.loc[f, 'matplotlib'] and
get_setting('show_plots')` — Python parses this as `mayavi or (matplotlib and
show_plots)`. -/
def dispatch_mode (env : RunEnv) (funcName : String) : DispatchMode :=
  if (env.flags funcName).mayavi || ((env.flags funcName).matplotlib && env.show_plots) then
    DispatchMode.blocking
  else
    DispatchMode.threaded

/-- The mutable attributes of `RunDialog` used by the scheduling logic. -/
structure SchedState where
  all_steps : List (String × String)
  all_objects : List (String × ObjEntry)
  current_step : Option (String × String)
  current_object : String
  current_func : String
  errors : List (String × (String × Nat))
  error_count : Nat
  prog_count : Nat
  paused : Bool
deriving Repr, DecidableEq

/-- `RunDialog.mark_current_items` (lines 257-270): set the status of the
current object and of the current function inside that object's function dict.
(When the object name is absent the Python code would raise `KeyError`; on the
states reachable from `init_lists` the name is always present.) -/
def mark_current_items (status : Nat) (objName funcName : String)
    (objs : List (String × ObjEntry)) : List (String × ObjEntry) :=
  match dictGet objName objs with
  | none => objs
  | some e =>
      dictInsert objName
        { e with status := status, functions := dictInsert funcName status e.functions } objs

/-- Python's `str` of a natural number (decimal digits). -/
def pyNatStr (n : Nat) : String :=
  if n = 0 then "0" else String.mk (((Nat.digits 10 n).map Nat.digitChar).reverse)

/-- The error key built by `thread_error` (line 378):
`f'{self.error_count}: {self.current_object.name} <- {self.current_func}'`. -/
def errKey (count : Nat) (objName funcName : String) : String :=
  pyNatStr count ++ ": " ++ objName ++ " <- " ++ funcName

/-- `RunDialog.thread_finished` (lines 355-375) minus the recursion into
`start_thread` (which `run_from` performs when the run is not paused):
advance the progress count and mark the current object and function with
status 0. -/
def thread_finished (s : SchedState) : SchedState :=
  { s with prog_count := s.prog_count + 1,
           all_objects := mark_current_items 0 s.current_object s.current_func s.all_objects }

/-- `RunDialog.thread_error` (lines 377-389): record the error under the
indexed key, increment the error count, then fall through to
`thread_finished`. -/
def thread_error (err : String) (s : SchedState) : SchedState :=
  thread_finished
    { s with
        errors := dictInsert (errKey s.error_count s.current_object s.current_func)
          (err, s.error_count) s.errors,
        error_count := s.error_count + 1 }

/-- `RunDialog.pause_funcs` (lines 391-393). -/
def pause_funcs (s : SchedState) : SchedState :=
  { s with paused := true }

/-- What the interpreter records about one executed step: its queue entry, how
it was dispatched, whether its function raised (and under which error index it
was filed), the `all_objects` dict while it was running (after the status-2
marking) and after it finished (after the status-0 marking). -/
structure StepRecord where
  obj : String
  func : String
  mode : DispatchMode
  errored : Bool
  errIdx : Option Nat
  snapshot : List (String × ObjEntry)
  postState : List (String × ObjEntry)
deriving Repr, DecidableEq

/-- One `start_thread` activation and everything it triggers until the run
pauses or the queue empties (`q` is `self.all_steps`): pop the first step, set
the current object/function, mark them running, let the function execute
(during which the user may press Pause), deliver exactly one of the
`thread_error`/`thread_finished` callbacks, and continue with the next step
unless paused. -/
def run_from (env : RunEnv) : List (String × String) → SchedState → SchedState × List StepRecord
  | [], s => ({ s with paused := false, all_steps := [] }, [])
  | (objName, funcName) :: rest, s =>
      let s₁ : SchedState :=
        { s with paused := false, all_steps := rest,
                 current_step := some (objName, funcName),
                 current_object := objName, current_func := funcName,
                 all_objects := mark_current_items 2 objName funcName s.all_objects }
      let s₂ := if env.pauseDuring objName funcName then pause_funcs s₁ else s₁
      let s₃ := match env.outcome objName funcName with
        | some err => thread_error err s₂
        | none => thread_finished s₂
      let r : StepRecord :=
        { obj := objName, func := funcName, mode := dispatch_mode env funcName,
          errored := (env.outcome objName funcName).isSome,
          errIdx := if (env.outcome objName funcName).isSome then some s.error_count else none,
          snapshot := s₁.all_objects, postState := s₃.all_objects }
      if s₃.paused then (s₃, [r])
      else
        let (s₄, tr) := run_from env rest s₃
        (s₄, r :: tr)

/-- A whole run with the user pressing Continue after every pause, driven to
completion.  `fuel` only serves termination; `fuel = q.length` always
suffices. -/
def drive (env : RunEnv) : Nat → List (String × String) → SchedState → SchedState × List StepRecord
  | _, [], s => run_from env [] s
  | 0, _ :: _, s => (s, [])
  | fuel + 1, p :: rest, s =>
      let r := run_from env (p :: rest) s
      if r.1.paused then
        let r' := drive env fuel r.1.all_steps r.1
        (r'.1, r.2 ++ r'.2)
      else r

/-! ## Analysis of the interpreter -/

/-- The queue entries of a trace. -/
def stepsOf (tr : List StepRecord) : List (String × String) :=
  tr.map (fun r => (r.obj, r.func))

/-- Spec-side description of the records produced for a list of executed
steps, starting from error count `c` and objects dict `objs`. -/
def recordsOf (env : RunEnv) : Nat → List (String × ObjEntry) → List (String × String) →
    List StepRecord
  | _, _, [] => []
  | c, objs, (o, f) :: rest =>
      let during := mark_current_items 2 o f objs
      let post := mark_current_items 0 o f during
      let errored := (env.outcome o f).isSome
      { obj := o, func := f, mode := dispatch_mode env f, errored := errored,
        errIdx := if errored then some c else none,
        snapshot := during, postState := post }
        :: recordsOf env (if errored then c + 1 else c) post rest

/-- The objects dict after a list of steps has executed (each step marks its
object and function running, then done — independently of its outcome). -/
def objsAfterSteps : List (String × ObjEntry) → List (String × String) →
    List (String × ObjEntry)
  | objs, [] => objs
  | objs, (o, f) :: rest =>
      objsAfterSteps (mark_current_items 0 o f (mark_current_items 2 o f objs)) rest

/-- The error entries recorded for a list of executed steps, starting from
error count `c`. -/
def errorsOf (env : RunEnv) : Nat → List (String × String) → List (String × (String × Nat))
  | _, [] => []
  | c, (o, f) :: rest =>
      match env.outcome o f with
      | some err => (errKey c o f, (err, c)) :: errorsOf env (c + 1) rest
      | none => errorsOf env c rest

/-- How many of the steps raise. -/
def errCount (env : RunEnv) (l : List (String × String)) : Nat :=
  l.countP (fun p => (env.outcome p.1 p.2).isSome)

/-- Insert a list of bindings into a dict, in order. -/
def dictInsertAll {α : Type} (d entries : List (String × α)) : List (String × α) :=
  entries.foldl (fun d e => dictInsert e.1 e.2 d) d

/-- How many steps one `start_thread` activation executes before the run
pauses or the queue empties. -/
def segLen (env : RunEnv) : List (String × String) → Nat
  | [] => 0
  | (o, f) :: rest => if env.pauseDuring o f then 1 else segLen env rest + 1

/-- Whether the segment ends in a pause (rather than by emptying the queue). -/
def pausedAfter (env : RunEnv) : List (String × String) → Bool
  | [] => false
  | (o, f) :: rest => if env.pauseDuring o f then true else pausedAfter env rest

theorem segLen_le (env : RunEnv) (q : List (String × String)) : segLen env q ≤ q.length := by
  induction q with
  | nil => simp [segLen]
  | cons p rest ih =>
    obtain ⟨o, f⟩ := p
    by_cases hp : env.pauseDuring o f
    · simp [segLen, hp]
    · simp only [segLen, if_neg hp, List.length_cons]
      omega

theorem segLen_pos (env : RunEnv) {q : List (String × String)} (h : q ≠ []) :
    1 ≤ segLen env q := by
  match q with
  | (o, f) :: rest =>
    by_cases hp : env.pauseDuring o f
    · simp [segLen, hp]
    · simp only [segLen, if_neg hp]
      omega

theorem segLen_of_not_pausedAfter (env : RunEnv) :
    ∀ q : List (String × String), pausedAfter env q = false → segLen env q = q.length := by
  intro q
  induction q with
  | nil => intro _; simp [segLen]
  | cons p rest ih =>
    obtain ⟨o, f⟩ := p
    intro h
    by_cases hp : env.pauseDuring o f
    · rw [pausedAfter] at h
      simp [hp] at h
    · rw [pausedAfter, if_neg hp] at h
      rw [segLen, if_neg hp, ih h, List.length_cons]

/-- The scheduler state after one step `(o, f)` has been dispatched and its
callback has run (the combined effect of the `start_thread` body and
`thread_finished`/`thread_error` on all fields). -/
def stepState (env : RunEnv) (o f : String) (rest : List (String × String))
    (s : SchedState) : SchedState where
  all_steps := rest
  all_objects := mark_current_items 0 o f (mark_current_items 2 o f s.all_objects)
  current_step := some (o, f)
  current_object := o
  current_func := f
  errors :=
    match env.outcome o f with
    | some err => dictInsert (errKey s.error_count o f) (err, s.error_count) s.errors
    | none => s.errors
  error_count := if (env.outcome o f).isSome then s.error_count + 1 else s.error_count
  prog_count := s.prog_count + 1
  paused := env.pauseDuring o f

/-- The record the interpreter produces for one step `(o, f)` started in
state `s`. -/
def stepRec (env : RunEnv) (o f : String) (s : SchedState) : StepRecord where
  obj := o
  func := f
  mode := dispatch_mode env f
  errored := (env.outcome o f).isSome
  errIdx := if (env.outcome o f).isSome then some s.error_count else none
  snapshot := mark_current_items 2 o f s.all_objects
  postState := mark_current_items 0 o f (mark_current_items 2 o f s.all_objects)

/-- Unfolding lemma: one iteration of `run_from` is `stepState`/`stepRec`. -/
theorem run_from_cons (env : RunEnv) (o f : String) (rest : List (String × String))
    (s : SchedState) :
    run_from env ((o, f) :: rest) s =
      if env.pauseDuring o f then (stepState env o f rest s, [stepRec env o f s])
      else
        ((run_from env rest (stepState env o f rest s)).1,
          stepRec env o f s :: (run_from env rest (stepState env o f rest s)).2) := by
  rcases h : env.outcome o f with _ | err
  · by_cases hp : env.pauseDuring o f
    · simp [run_from, thread_finished, pause_funcs, stepState, stepRec, h, hp]
    · simp [run_from, thread_finished, pause_funcs, stepState, stepRec, h, hp]
  · by_cases hp : env.pauseDuring o f
    · simp [run_from, thread_error, thread_finished, pause_funcs, stepState, stepRec, h, hp]
    · simp [run_from, thread_error, thread_finished, pause_funcs, stepState, stepRec, h, hp]

/-- Master characterization of one `start_thread` activation: it executes the
first `segLen` steps of the queue, producing exactly the records, remaining
queue, objects dict, error dict, error count, progress count, and pause flag
described by the spec-side functions. -/
theorem run_from_spec (env : RunEnv) :
    ∀ (q : List (String × String)) (s : SchedState),
      (run_from env q s).2 = recordsOf env s.error_count s.all_objects (q.take (segLen env q))
      ∧ (run_from env q s).1.all_steps = q.drop (segLen env q)
      ∧ (run_from env q s).1.all_objects
          = objsAfterSteps s.all_objects (q.take (segLen env q))
      ∧ (run_from env q s).1.errors
          = dictInsertAll s.errors (errorsOf env s.error_count (q.take (segLen env q)))
      ∧ (run_from env q s).1.error_count
          = s.error_count + errCount env (q.take (segLen env q))
      ∧ (run_from env q s).1.prog_count = s.prog_count + segLen env q
      ∧ (run_from env q s).1.paused = pausedAfter env q := by
  intro q
  induction q with
  | nil =>
    intro s
    simp [run_from, segLen, recordsOf, objsAfterSteps, dictInsertAll, errCount,
      pausedAfter, errorsOf]
  | cons p rest ih =>
    obtain ⟨o, f⟩ := p
    intro s
    rw [run_from_cons]
    by_cases hp : env.pauseDuring o f
    · rw [if_pos hp]
      rcases h : env.outcome o f with _ | err
      · simp [stepState, stepRec, h, hp, segLen, recordsOf, objsAfterSteps, dictInsertAll,
          errorsOf, errCount, pausedAfter, List.countP_cons]
      · simp [stepState, stepRec, h, hp, segLen, recordsOf, objsAfterSteps, dictInsertAll,
          errorsOf, errCount, pausedAfter, List.countP_cons]
    · rw [if_neg hp]
      obtain ⟨h1, h2, h3, h4, h5, h6, h7⟩ := ih (stepState env o f rest s)
      rcases h : env.outcome o f with _ | err
      · simp [stepState, stepRec, h, hp] at h1 h2 h3 h4 h5 h6 h7
        simp only [stepState, stepRec, h, hp, Option.isSome_some, Option.isSome_none,
          if_true, if_false]
        simp [segLen, recordsOf, objsAfterSteps, dictInsertAll, errorsOf, errCount,
          pausedAfter, hp, h, h1, h2, h3, h4, h5, h6, h7, List.countP_cons]
        omega
      · simp [stepState, stepRec, h, hp] at h1 h2 h3 h4 h5 h6 h7
        simp only [stepState, stepRec, h, hp, Option.isSome_some, Option.isSome_none,
          if_true, if_false]
        simp [segLen, recordsOf, objsAfterSteps, dictInsertAll, errorsOf, errCount,
          pausedAfter, hp, h, h1, h2, h3, h4, h5, h6, h7, List.countP_cons]
        omega

theorem objsAfterSteps_append (objs : List (String × ObjEntry))
    (l₁ l₂ : List (String × String)) :
    objsAfterSteps objs (l₁ ++ l₂) = objsAfterSteps (objsAfterSteps objs l₁) l₂ := by
  induction l₁ generalizing objs with
  | nil => simp [objsAfterSteps]
  | cons p rest ih =>
    obtain ⟨o, f⟩ := p
    simp [objsAfterSteps, ih]

theorem errCount_cons (env : RunEnv) (o f : String) (rest : List (String × String)) :
    errCount env ((o, f) :: rest)
      = errCount env rest + (if (env.outcome o f).isSome then 1 else 0) := by
  simp [errCount, List.countP_cons]

theorem errorsOf_append (env : RunEnv) (c : Nat) (l₁ l₂ : List (String × String)) :
    errorsOf env c (l₁ ++ l₂)
      = errorsOf env c l₁ ++ errorsOf env (c + errCount env l₁) l₂ := by
  induction l₁ generalizing c with
  | nil => simp [errorsOf, errCount]
  | cons p rest ih =>
    obtain ⟨o, f⟩ := p
    rcases h : env.outcome o f with _ | err
    · have hc : c + errCount env ((o, f) :: rest) = c + errCount env rest := by
        rw [errCount_cons, h]
        simp
      simp only [List.cons_append, errorsOf, List.append_eq, h, ih, hc]
    · have hc : c + errCount env ((o, f) :: rest) = (c + 1) + errCount env rest := by
        rw [errCount_cons, h]
        simp
        omega
      simp only [List.cons_append, errorsOf, List.append_eq, h, ih, hc]

theorem recordsOf_append (env : RunEnv) (c : Nat) (objs : List (String × ObjEntry))
    (l₁ l₂ : List (String × String)) :
    recordsOf env c objs (l₁ ++ l₂)
      = recordsOf env c objs l₁
        ++ recordsOf env (c + errCount env l₁) (objsAfterSteps objs l₁) l₂ := by
  induction l₁ generalizing c objs with
  | nil => simp [recordsOf, errCount, objsAfterSteps]
  | cons p rest ih =>
    obtain ⟨o, f⟩ := p
    rcases h : env.outcome o f with _ | err
    · have hc : c + errCount env ((o, f) :: rest) = c + errCount env rest := by
        rw [errCount_cons, h]
        simp
      simp only [List.cons_append, recordsOf, List.append_eq, h, Option.isSome_none,
        Bool.false_eq_true, if_false, ih, hc, objsAfterSteps]
    · have hc : c + errCount env ((o, f) :: rest) = (c + 1) + errCount env rest := by
        rw [errCount_cons, h]
        simp
        omega
      simp only [List.cons_append, recordsOf, List.append_eq, h, Option.isSome_some,
        if_true, ih, hc, objsAfterSteps]

theorem dictInsertAll_append {α : Type} (d : List (String × α))
    (e₁ e₂ : List (String × α)) :
    dictInsertAll d (e₁ ++ e₂) = dictInsertAll (dictInsertAll d e₁) e₂ := by
  simp [dictInsertAll, List.foldl_append]

theorem drive_succ_cons (env : RunEnv) (fuel : Nat) (p : String × String)
    (rest : List (String × String)) (s : SchedState) :
    drive env (fuel + 1) (p :: rest) s =
      if (run_from env (p :: rest) s).1.paused then
        ((drive env fuel (run_from env (p :: rest) s).1.all_steps
            (run_from env (p :: rest) s).1).1,
          (run_from env (p :: rest) s).2
            ++ (drive env fuel (run_from env (p :: rest) s).1.all_steps
                  (run_from env (p :: rest) s).1).2)
      else run_from env (p :: rest) s := by
  rw [drive]

/-- Master characterization of a complete run (Continue pressed after every
pause): all steps of the queue execute, in order, and the final state carries
the accumulated errors, error count and progress count. -/
theorem drive_spec (env : RunEnv) :
    ∀ (fuel : Nat) (q : List (String × String)) (s : SchedState), q.length ≤ fuel →
      (drive env fuel q s).2 = recordsOf env s.error_count s.all_objects q
      ∧ (drive env fuel q s).1.all_steps = []
      ∧ (drive env fuel q s).1.all_objects = objsAfterSteps s.all_objects q
      ∧ (drive env fuel q s).1.errors = dictInsertAll s.errors (errorsOf env s.error_count q)
      ∧ (drive env fuel q s).1.error_count = s.error_count + errCount env q
      ∧ (drive env fuel q s).1.prog_count = s.prog_count + q.length := by
  intro fuel
  induction fuel with
  | zero =>
    intro q s hq
    rw [List.length_eq_zero.mp (Nat.le_zero.mp hq)]
    simp [drive, run_from, recordsOf, objsAfterSteps, dictInsertAll, errorsOf, errCount]
  | succ fuel ih =>
    intro q s hq
    match q with
    | [] =>
      simp [drive, run_from, recordsOf, objsAfterSteps, dictInsertAll, errorsOf, errCount]
    | p :: rest =>
      obtain ⟨g1, g2, g3, g4, g5, g6, g7⟩ := run_from_spec env (p :: rest) s
      rw [drive_succ_cons, g7]
      by_cases hpa : pausedAfter env (p :: rest) = true
      · rw [hpa]
        simp only [if_true]
        have hseg1 : 1 ≤ segLen env (p :: rest) := segLen_pos env (by simp)
        have hsegle : segLen env (p :: rest) ≤ (p :: rest).length := segLen_le env _
        have hlen : (run_from env (p :: rest) s).1.all_steps.length ≤ fuel := by
          rw [g2, List.length_drop]
          simp only [List.length_cons] at hq ⊢
          omega
        obtain ⟨i1, i2, i3, i4, i5, i6⟩ := ih _ _ hlen
        refine ⟨?_, i2, ?_, ?_, ?_, ?_⟩
        · rw [i1, g1, g2, g3, g5]
          rw [← recordsOf_append]
          rw [List.take_append_drop]
        · rw [i3, g2, g3]
          rw [← objsAfterSteps_append, List.take_append_drop]
        · rw [i4, g2, g4, g5]
          rw [← dictInsertAll_append, ← errorsOf_append, List.take_append_drop]
        · have hsplit : errCount env (List.take (segLen env (p :: rest)) (p :: rest))
              + errCount env (List.drop (segLen env (p :: rest)) (p :: rest))
              = errCount env (p :: rest) := by
            rw [errCount, errCount, errCount, ← List.countP_append, List.take_append_drop]
          rw [i5, g5, g2]
          omega
        · rw [i6, g2, g6]
          rw [List.length_drop]
          simp only [List.length_cons] at hsegle ⊢
          omega
      · simp only [Bool.not_eq_true] at hpa
        rw [hpa]
        simp only [Bool.false_eq_true, if_false]
        have hseg : segLen env (p :: rest) = (p :: rest).length :=
          segLen_of_not_pausedAfter env _ hpa
        rw [hseg] at g1 g2 g3 g4 g5 g6
        rw [List.take_length] at g1 g3 g4 g5
        rw [List.drop_length] at g2
        exact ⟨g1, g2, g3, g4, g5, g6⟩

theorem range'_succ_eq (s n : Nat) : List.range' s (n + 1) = s :: List.range' (s + 1) n := rfl

/-- The queue entries of the produced records are exactly the steps, in
order. -/
theorem stepsOf_recordsOf (env : RunEnv) :
    ∀ (q : List (String × String)) (c : Nat) (objs : List (String × ObjEntry)),
      stepsOf (recordsOf env c objs q) = q := by
  intro q
  induction q with
  | nil => intro c objs; simp [recordsOf, stepsOf]
  | cons p rest ih =>
    intro c objs
    obtain ⟨o, f⟩ := p
    simp only [stepsOf] at ih ⊢
    rcases h : env.outcome o f with _ | err
    · simp [recordsOf, h, ih]
    · simp [recordsOf, h, ih]

/-- The error indices handed out along a trace are consecutive, starting at
the initial error count — in particular pairwise distinct. -/
theorem errIdxs_recordsOf (env : RunEnv) :
    ∀ (q : List (String × String)) (c : Nat) (objs : List (String × ObjEntry)),
      (recordsOf env c objs q).filterMap (fun r => r.errIdx)
        = List.range' c (errCount env q) := by
  intro q
  induction q with
  | nil => intro c objs; simp [recordsOf, errCount]
  | cons p rest ih =>
    intro c objs
    obtain ⟨o, f⟩ := p
    rcases h : env.outcome o f with _ | err
    · simp [recordsOf, h, errCount_cons, ih]
    · simp only [recordsOf, h, Option.isSome_some, if_true, List.filterMap_cons, errCount_cons,
        range'_succ_eq, ih]

/-- Per-record facts: the recorded dispatch mode is the one computed from the
function's flags, and a record is errored exactly when its function raised
(in which case it carries an error index). -/
theorem recordsOf_fields (env : RunEnv) :
    ∀ (q : List (String × String)) (c : Nat) (objs : List (String × ObjEntry))
      (r : StepRecord), r ∈ recordsOf env c objs q →
      r.mode = dispatch_mode env r.func
      ∧ r.errored = (env.outcome r.obj r.func).isSome
      ∧ (r.errored = true → r.errIdx.isSome) := by
  intro q
  induction q with
  | nil => intro c objs r hr; simp [recordsOf] at hr
  | cons p rest ih =>
    intro c objs r hr
    obtain ⟨o, f⟩ := p
    rw [recordsOf] at hr
    rcases List.mem_cons.mp hr with h' | h'
    · subst h'
      refine ⟨rfl, rfl, ?_⟩
      intro herr
      simp only at herr ⊢
      rw [herr]
      simp
    · exact ih _ _ r h'

/-- The indices stored in the recorded error entries are consecutive from the
initial error count. -/
theorem errorsOf_idxs (env : RunEnv) :
    ∀ (q : List (String × String)) (c : Nat),
      (errorsOf env c q).map (fun e => e.2.2) = List.range' c (errCount env q) := by
  intro q
  induction q with
  | nil => intro c; simp [errorsOf, errCount]
  | cons p rest ih =>
    intro c
    obtain ⟨o, f⟩ := p
    rcases h : env.outcome o f with _ | err
    · simp [errorsOf, h, errCount_cons, ih]
    · simp only [errorsOf, h, List.map_cons, errCount_cons, Option.isSome_some, if_true,
        range'_succ_eq, ih]

/-- Every recorded error entry is keyed by the indexed key built from its own
index together with the object and function name of a step of the queue. -/
theorem errorsOf_keys (env : RunEnv) :
    ∀ (q : List (String × String)) (c : Nat) (e : String × (String × Nat)),
      e ∈ errorsOf env c q →
      ∃ o f msg, (o, f) ∈ q ∧ e = (errKey e.2.2 o f, (msg, e.2.2)) := by
  intro q
  induction q with
  | nil => intro c e he; simp [errorsOf] at he
  | cons p rest ih =>
    intro c e he
    obtain ⟨o, f⟩ := p
    rw [errorsOf] at he
    rcases h : env.outcome o f with _ | err
    · rw [h] at he
      obtain ⟨o', f', msg, hm, he'⟩ := ih _ _ he
      exact ⟨o', f', msg, List.mem_cons_of_mem _ hm, he'⟩
    · rw [h] at he
      rcases List.mem_cons.mp he with h' | h'
      · subst h'
        exact ⟨o, f, err, List.mem_cons_self _ _, rfl⟩
      · obtain ⟨o', f', msg, hm, he'⟩ := ih _ _ h'
        exact ⟨o', f', msg, List.mem_cons_of_mem _ hm, he'⟩

/-! ### Injectivity of the indexed error keys -/

theorem string_data_append (a b : String) : (a ++ b).data = a.data ++ b.data := rfl

theorem digitChar_injOn :
    ∀ a < 10, ∀ b < 10, Nat.digitChar a = Nat.digitChar b → a = b := by decide

theorem digitChar_ne_colon : ∀ a < 10, Nat.digitChar a ≠ ':' := by decide

theorem map_digitChar_inj :
    ∀ (l₁ l₂ : List Nat), (∀ x ∈ l₁, x < 10) → (∀ x ∈ l₂, x < 10) →
      l₁.map Nat.digitChar = l₂.map Nat.digitChar → l₁ = l₂ := by
  intro l₁
  induction l₁ with
  | nil =>
    intro l₂ _ _ h
    cases l₂ with
    | nil => rfl
    | cons b t => simp at h
  | cons a t ih =>
    intro l₂ h₁ h₂ h
    cases l₂ with
    | nil => simp at h
    | cons b t₂ =>
      simp only [List.map_cons, List.cons.injEq] at h
      have hab := digitChar_injOn a (h₁ a (List.mem_cons_self a t)) b
        (h₂ b (List.mem_cons_self b t₂)) h.1
      have ht := ih t₂ (fun x hx => h₁ x (List.mem_cons_of_mem _ hx))
        (fun x hx => h₂ x (List.mem_cons_of_mem _ hx)) h.2
      rw [hab, ht]

theorem digits_map_ne_single_zero {n : Nat} (hn : n ≠ 0) :
    (Nat.digits 10 n).map Nat.digitChar ≠ ['0'] := by
  intro h
  have h0 : ((Nat.digits 10 n).map Nat.digitChar) = ([0].map Nat.digitChar) := by
    simpa [Nat.digitChar] using h
  have hd : Nat.digits 10 n = [0] :=
    map_digitChar_inj _ _ (fun x hx => Nat.digits_lt_base (by norm_num) hx)
      (by intro x hx; simp at hx; omega) h0
  have := Nat.ofDigits_digits 10 n
  rw [hd] at this
  simp [Nat.ofDigits] at this
  exact hn this.symm

theorem pyNatStr_inj {m n : Nat} (h : pyNatStr m = pyNatStr n) : m = n := by
  unfold pyNatStr at h
  by_cases hm : m = 0 <;> by_cases hn : n = 0
  · rw [hm, hn]
  · exfalso
    rw [if_pos hm, if_neg hn] at h
    have hdata : ['0'] = ((Nat.digits 10 n).map Nat.digitChar).reverse :=
      congrArg String.data h
    have : (Nat.digits 10 n).map Nat.digitChar = ['0'] := by
      have := congrArg List.reverse hdata
      simpa using this.symm
    exact digits_map_ne_single_zero hn this
  · exfalso
    rw [if_neg hm, if_pos hn] at h
    have hdata : ((Nat.digits 10 m).map Nat.digitChar).reverse = ['0'] :=
      congrArg String.data h
    have : (Nat.digits 10 m).map Nat.digitChar = ['0'] := by
      have := congrArg List.reverse hdata
      simpa using this
    exact digits_map_ne_single_zero hm this
  · rw [if_neg hm, if_neg hn] at h
    have hdata : ((Nat.digits 10 m).map Nat.digitChar).reverse
        = ((Nat.digits 10 n).map Nat.digitChar).reverse := congrArg String.data h
    have hmap : (Nat.digits 10 m).map Nat.digitChar = (Nat.digits 10 n).map Nat.digitChar := by
      have := congrArg List.reverse hdata
      simpa using this
    have hd : Nat.digits 10 m = Nat.digits 10 n :=
      map_digitChar_inj _ _ (fun x hx => Nat.digits_lt_base (by norm_num) hx)
        (fun x hx => Nat.digits_lt_base (by norm_num) hx) hmap
    exact Nat.digits_inj_iff.mp hd

theorem pyNatStr_no_colon (n : Nat) : ∀ ch ∈ (pyNatStr n).data, ch ≠ ':' := by
  unfold pyNatStr
  by_cases hn : n = 0
  · rw [if_pos hn]
    intro c hc
    have : c ∈ ['0'] := hc
    simp at this
    rw [this]
    decide
  · rw [if_neg hn]
    intro c hc
    have hc' : c ∈ ((Nat.digits 10 n).map Nat.digitChar).reverse := hc
    rw [List.mem_reverse] at hc'
    obtain ⟨d, hd, rfl⟩ := List.mem_map.mp hc'
    exact digitChar_ne_colon d (Nat.digits_lt_base (by norm_num) hd)

theorem takeWhile_append_colon :
    ∀ (l r : List Char), (∀ c ∈ l, c ≠ ':') →
      (l ++ ':' :: r).takeWhile (fun c => c != ':') = l := by
  intro l
  induction l with
  | nil =>
    intro r _
    simp [List.takeWhile]
  | cons a t ih =>
    intro r h
    have ha : (a != ':') = true := by
      simp only [bne_iff_ne, ne_eq]
      exact h a (List.mem_cons_self a t)
    simp only [List.cons_append, List.takeWhile_cons, ha, if_true]
    rw [ih r (fun c hc => h c (List.mem_cons_of_mem _ hc))]

theorem errKey_data (count : Nat) (objName funcName : String) :
    (errKey count objName funcName).data
      = (pyNatStr count).data
        ++ ':' :: ' ' :: (objName.data ++ (' ' :: '<' :: '-' :: ' ' :: funcName.data)) := by
  show ((((pyNatStr count ++ ": ") ++ objName) ++ " <- ") ++ funcName).data = _
  simp only [string_data_append, List.append_assoc]
  rfl

/-- Two indexed error keys agree only if their indices agree: the decimal
prefix before the first colon is the index. -/
theorem errKey_inj_count {m n : Nat} {o f o' f' : String}
    (h : errKey m o f = errKey n o' f') : m = n := by
  have hdata := congrArg String.data h
  rw [errKey_data, errKey_data] at hdata
  have hm := takeWhile_append_colon (pyNatStr m).data
    (' ' :: (o.data ++ (' ' :: '<' :: '-' :: ' ' :: f.data))) (pyNatStr_no_colon m)
  have hn := takeWhile_append_colon (pyNatStr n).data
    (' ' :: (o'.data ++ (' ' :: '<' :: '-' :: ' ' :: f'.data))) (pyNatStr_no_colon n)
  have hdd : (pyNatStr m).data = (pyNatStr n).data := by
    rw [← hm, ← hn, hdata]
  exact pyNatStr_inj (by
    cases hp : pyNatStr m with
    | mk dm =>
      cases hq : pyNatStr n with
      | mk dn =>
        rw [hp, hq] at hdd
        simpa [hp, hq] using congrArg String.mk hdd)

theorem dictGet_eq_some_mem {α : Type} {k : String} {v : α} :
    ∀ {d : List (String × α)}, dictGet k d = some v → (k, v) ∈ d := by
  intro d
  induction d with
  | nil => intro h; simp [dictGet] at h
  | cons p t ih =>
    obtain ⟨k', v'⟩ := p
    intro h
    rw [dictGet] at h
    by_cases hk : k' = k
    · rw [if_pos hk] at h
      injection h with h
      rw [hk, h]
      exact List.mem_cons_self _ _
    · rw [if_neg hk] at h
      exact List.mem_cons_of_mem _ (ih h)

theorem dictInsert_length_of_none {α : Type} {k : String} (v : α) :
    ∀ {d : List (String × α)}, dictGet k d = none →
      (dictInsert k v d).length = d.length + 1 := by
  intro d
  induction d with
  | nil => intro _; simp [dictInsert]
  | cons p t ih =>
    obtain ⟨k', v'⟩ := p
    intro h
    rw [dictGet] at h
    by_cases hk : k' = k
    · rw [if_pos hk] at h
      simp at h
    · rw [if_neg hk] at h
      rw [dictInsert, if_neg hk, List.length_cons, List.length_cons, ih h]

/-- Well-formedness of the errors dict at error count `c`: every entry is
keyed by the indexed error key built from its own stored index, and all
stored indices are below `c`. -/
def wfErrors (c : Nat) (errors : List (String × (String × Nat))) : Prop :=
  ∀ e ∈ errors, (∃ o f, e.1 = errKey e.2.2 o f) ∧ e.2.2 < c

/-- Because every new error key carries the strictly increasing error count,
recording an error never overwrites an existing entry: the dict grows by
exactly one entry per raised exception. -/
theorem dictInsertAll_errorsOf_length (env : RunEnv) :
    ∀ (q : List (String × String)) (c : Nat) (d : List (String × (String × Nat))),
      wfErrors c d →
      (dictInsertAll d (errorsOf env c q)).length = d.length + errCount env q
      ∧ wfErrors (c + errCount env q) (dictInsertAll d (errorsOf env c q)) := by
  intro q
  induction q with
  | nil =>
    intro c d hw
    simp only [errorsOf, dictInsertAll, List.foldl_nil, errCount, List.countP_nil]
    exact ⟨rfl, hw⟩
  | cons p rest ih =>
    intro c d hw
    obtain ⟨o, f⟩ := p
    rcases h : env.outcome o f with _ | err
    · have hc : errCount env ((o, f) :: rest) = errCount env rest := by
        rw [errCount_cons, h]
        simp
      rw [hc, errorsOf, h]
      exact ih c d hw
    · have hc : errCount env ((o, f) :: rest) = errCount env rest + 1 := by
        rw [errCount_cons, h]
        simp
      have hfresh : dictGet (errKey c o f) d = none := by
        cases hg : dictGet (errKey c o f) d with
        | none => rfl
        | some v =>
          exfalso
          have hmem := dictGet_eq_some_mem hg
          obtain ⟨⟨o', f', hkey⟩, hlt⟩ := hw _ hmem
          have hck : errKey c o f = errKey v.2 o' f' := hkey
          have hcv := errKey_inj_count hck
          have hlt' : v.2 < c := hlt
          omega
      have hw' : wfErrors (c + 1) (dictInsert (errKey c o f) (err, c) d) := by
        intro e he
        rcases mem_dictInsert he with h' | h'
        · rw [h']
          exact ⟨⟨o, f, rfl⟩, Nat.lt_succ_self c⟩
        · obtain ⟨hex, hlt⟩ := hw _ h'
          exact ⟨hex, by omega⟩
      obtain ⟨ihlen, ihwf⟩ := ih (c + 1) (dictInsert (errKey c o f) (err, c) d) hw'
      have hstep : dictInsertAll d (errorsOf env c ((o, f) :: rest))
          = dictInsertAll (dictInsert (errKey c o f) (err, c) d) (errorsOf env (c + 1) rest) := by
        rw [errorsOf, h]
        rfl
      constructor
      · rw [hstep, ihlen, dictInsert_length_of_none _ hfresh, hc]
        omega
      · rw [hstep, hc]
        have : c + (errCount env rest + 1) = c + 1 + errCount env rest := by omega
        rw [this]
        exact ihwf

/-! ### Concrete sample inputs used by the witnesses and counterexamples -/

/-- A one-step initial scheduler state: one MEEG object `"a"` with one
selected function `"f"`, as `init_attributes`/`init_lists` would build it. -/
def state0 : SchedState where
  all_steps := [("a", "f")]
  all_objects := [("a", { type := "MEEG", functions := [("f", 1)], status := 1 })]
  current_step := none
  current_object := ""
  current_func := ""
  errors := []
  error_count := 0
  prog_count := 0
  paused := false

/-- An environment in which every function raises. -/
def boomEnv : RunEnv where
  flags := fun _ => { mayavi := false, matplotlib := false }
  show_plots := false
  outcome := fun _ _ => some "boom"
  pauseDuring := fun _ _ => false

/-- An environment in which every function returns normally. -/
def calmEnv : RunEnv where
  flags := fun _ => { mayavi := false, matplotlib := false }
  show_plots := false
  outcome := fun _ _ => none
  pauseDuring := fun _ _ => false

/-- C2: when a step's function raises, `thread_error` records the exception in
the errors mapping under the indexed key (retrievable there), increments the
error count by exactly one, and the run goes on: every step of the queue is
still dispatched (the batch is never aborted), the recorded error indices are
the consecutive integers starting at the initial error count (hence pairwise
distinct), every recorded entry is keyed by its own index with the object and
function name of a queue step, and no recorded entry is ever lost to
overwriting. -/
theorem C2_thread_error_records_and_continues :
    (∀ (s : SchedState) (err : String),
      (thread_error err s).error_count = s.error_count + 1
      ∧ dictGet (errKey s.error_count s.current_object s.current_func)
          (thread_error err s).errors = some (err, s.error_count))
    ∧ ∀ (env : RunEnv) (fuel : Nat) (q : List (String × String)) (s : SchedState),
        q.length ≤ fuel →
        stepsOf (drive env fuel q s).2 = q
        ∧ (drive env fuel q s).1.errors
            = dictInsertAll s.errors (errorsOf env s.error_count q)
        ∧ (errorsOf env s.error_count q).map (fun e => e.2.2)
            = List.range' s.error_count (errCount env q)
        ∧ (∀ e ∈ errorsOf env s.error_count q,
            ∃ o f msg, (o, f) ∈ q ∧ e = (errKey e.2.2 o f, (msg, e.2.2)))
        ∧ (wfErrors s.error_count s.errors →
            (drive env fuel q s).1.errors.length = s.errors.length + errCount env q) := by
  constructor
  · intro s err
    constructor
    · simp [thread_error, thread_finished]
    · simp only [thread_error, thread_finished]
      exact dictGet_dictInsert_self _ _ _
  · intro env fuel q s hq
    obtain ⟨d1, _, _, d4, _, _⟩ := drive_spec env fuel q s hq
    refine ⟨?_, d4, errorsOf_idxs env q s.error_count, errorsOf_keys env q s.error_count, ?_⟩
    · rw [d1, stepsOf_recordsOf]
    · intro hw
      rw [d4]
      exact (dictInsertAll_errorsOf_length env q s.error_count s.errors hw).1

/-- Witness for C2 at the concrete one-step state whose function raises. -/
theorem C2_witness :
    stepsOf (drive boomEnv 1 [("a", "f")] state0).2 = [("a", "f")]
    ∧ (drive boomEnv 1 [("a", "f")] state0).1.errors.length = 1 := by
  have h := C2_thread_error_records_and_continues.2 boomEnv 1 [("a", "f")] state0
    (by decide)
  obtain ⟨h1, _, _, _, h5⟩ := h
  refine ⟨h1, ?_⟩
  have hwf : wfErrors state0.error_count state0.errors := by
    intro e he
    simp [state0] at he
  have := h5 hwf
  rw [this]
  simp [state0, errCount, boomEnv]

/-- An environment in which the user presses Pause during every step. -/
def pauseEnv : RunEnv where
  flags := fun _ => { mayavi := false, matplotlib := false }
  show_plots := false
  outcome := fun _ _ => none
  pauseDuring := fun _ _ => true

/-- C4: requesting a pause never cancels the running step. `pause_funcs` only
raises the `paused` flag; the segment that ends in a pause still executes its
last step to completion (it is recorded, counted in `prog_count`, and the
queue keeps exactly the unexecuted suffix for Continue); and across the whole
pause/continue run every queued step executes exactly once, in order,
independently of the pause schedule. -/
theorem C4_pause_never_cancels :
    ∀ (env : RunEnv) (fuel : Nat) (q : List (String × String)) (s : SchedState),
      q.length ≤ fuel →
      stepsOf (drive env fuel q s).2 = q
      ∧ ((pause_funcs s).all_steps = s.all_steps
          ∧ (pause_funcs s).all_objects = s.all_objects
          ∧ (pause_funcs s).errors = s.errors
          ∧ (pause_funcs s).prog_count = s.prog_count
          ∧ (pause_funcs s).paused = true)
      ∧ (q ≠ [] →
          1 ≤ segLen env q
          ∧ stepsOf (run_from env q s).2 = q.take (segLen env q)
          ∧ (run_from env q s).1.prog_count = s.prog_count + segLen env q
          ∧ (run_from env q s).1.all_steps = q.drop (segLen env q)) := by
  intro env fuel q s hq
  obtain ⟨d1, _, _, _, _, _⟩ := drive_spec env fuel q s hq
  obtain ⟨g1, g2, _, _, _, g6, _⟩ := run_from_spec env q s
  refine ⟨?_, ⟨rfl, rfl, rfl, rfl, rfl⟩, ?_⟩
  · rw [d1, stepsOf_recordsOf]
  · intro hne
    exact ⟨segLen_pos env hne, by rw [g1, stepsOf_recordsOf], g6, g2⟩

/-- Witness for C4: a one-step queue paused during its only step. -/
theorem C4_witness :
    stepsOf (drive pauseEnv 1 [("a", "f")] state0).2 = [("a", "f")]
    ∧ (run_from pauseEnv [("a", "f")] state0).1.all_steps = [] := by
  have h := C4_pause_never_cancels pauseEnv 1 [("a", "f")] state0 (by decide)
  obtain ⟨h1, _, h3⟩ := h
  obtain ⟨_, _, _, h34⟩ := h3 (by simp)
  refine ⟨h1, ?_⟩
  rw [h34]
  decide

/-! ### At most one step runs at a time (C5) -/

/-- Number of objects currently marked running (status 2). -/
def runningObjCount (objs : List (String × ObjEntry)) : Nat :=
  objs.countP (fun p => p.2.status == 2)

/-- Number of function entries currently marked running (status 2), over all
objects. -/
def runningFuncCount (objs : List (String × ObjEntry)) : Nat :=
  (objs.map (fun p => p.2.functions.countP (fun q => q.2 == 2))).sum

theorem countP_dictInsert_of_zero {α : Type} (p : String × α → Bool) :
    ∀ {d : List (String × α)}, d.countP p = 0 → ∀ (k : String) (v : α),
      (dictInsert k v d).countP p = if p (k, v) then 1 else 0 := by
  intro d
  induction d with
  | nil =>
    intro _ k v
    simp [dictInsert, List.countP_cons]
  | cons e t ih =>
    intro h k v
    obtain ⟨k', v'⟩ := e
    rw [List.countP_cons] at h
    have ht : t.countP p = 0 := by omega
    have he : p (k', v') = false := by
      by_cases hp : p (k', v')
      · rw [if_pos hp] at h
        omega
      · exact Bool.eq_false_iff.mpr hp
    rw [dictInsert]
    by_cases hk : k' = k
    · rw [if_pos hk, List.countP_cons, ht]
      simp
    · rw [if_neg hk, List.countP_cons, ih ht k v, he]
      simp

theorem mapSum_dictInsert_of_zero (g : String × ObjEntry → Nat) :
    ∀ {d : List (String × ObjEntry)}, (d.map g).sum = 0 → ∀ (k : String) (v : ObjEntry),
      ((dictInsert k v d).map g).sum = g (k, v) := by
  intro d
  induction d with
  | nil =>
    intro _ k v
    simp [dictInsert]
  | cons e t ih =>
    intro h k v
    obtain ⟨k', v'⟩ := e
    rw [List.map_cons, List.sum_cons] at h
    have ht : (t.map g).sum = 0 := by omega
    have he : g (k', v') = 0 := by omega
    rw [dictInsert]
    by_cases hk : k' = k
    · rw [if_pos hk, List.map_cons, List.sum_cons, ht]
      omega
    · rw [if_neg hk, List.map_cons, List.sum_cons, ih ht k v, he]
      omega

theorem mapSum_zero_of_mem {g : String × ObjEntry → Nat}
    {d : List (String × ObjEntry)} (h : (d.map g).sum = 0) {e : String × ObjEntry}
    (he : e ∈ d) : g e = 0 := by
  have := List.sum_eq_zero_iff.mp h
  exact this (g e) (List.mem_map.mpr ⟨e, he, rfl⟩)

theorem dictInsert_dictInsert_same {α : Type} (k : String) (v v' : α) :
    ∀ (d : List (String × α)), dictInsert k v (dictInsert k v' d) = dictInsert k v d := by
  intro d
  induction d with
  | nil => simp [dictInsert]
  | cons e t ih =>
    obtain ⟨k', v₀⟩ := e
    by_cases hk : k' = k
    · simp [dictInsert, hk]
    · simp [dictInsert, hk, ih]

theorem mark2_counts {objs : List (String × ObjEntry)} (o f : String)
    (hobj : runningObjCount objs = 0) (hfun : runningFuncCount objs = 0) :
    runningObjCount (mark_current_items 2 o f objs) ≤ 1
    ∧ runningFuncCount (mark_current_items 2 o f objs) ≤ 1 := by
  rw [mark_current_items]
  cases hg : dictGet o objs with
  | none =>
    rw [hobj, hfun]
    omega
  | some e =>
    have hmem := dictGet_eq_some_mem hg
    constructor
    · rw [runningObjCount,
        countP_dictInsert_of_zero _ (by rw [runningObjCount] at hobj; exact hobj)]
      split <;> omega
    · rw [runningFuncCount,
        mapSum_dictInsert_of_zero _ (by rw [runningFuncCount] at hfun; exact hfun)]
      have he : e.functions.countP (fun q => q.2 == 2) = 0 :=
        mapSum_zero_of_mem (by rw [runningFuncCount] at hfun; exact hfun) hmem
      simp only []
      rw [countP_dictInsert_of_zero _ he]
      split <;> omega

theorem mark20_counts_zero {objs : List (String × ObjEntry)} (o f : String)
    (hobj : runningObjCount objs = 0) (hfun : runningFuncCount objs = 0) :
    runningObjCount (mark_current_items 0 o f (mark_current_items 2 o f objs)) = 0
    ∧ runningFuncCount (mark_current_items 0 o f (mark_current_items 2 o f objs)) = 0 := by
  cases hg : dictGet o objs with
  | none =>
    have h2 : mark_current_items 2 o f objs = objs := by rw [mark_current_items, hg]
    have h0 : mark_current_items 0 o f objs = objs := by rw [mark_current_items, hg]
    rw [h2, h0]
    exact ⟨hobj, hfun⟩
  | some e =>
    have hmem := dictGet_eq_some_mem hg
    have h2 : mark_current_items 2 o f objs
        = dictInsert o
            { type := e.type, functions := dictInsert f 2 e.functions, status := 2 } objs := by
      rw [mark_current_items, hg]
    have hget2 : dictGet o (mark_current_items 2 o f objs)
        = some { type := e.type, functions := dictInsert f 2 e.functions, status := 2 } := by
      rw [h2]
      exact dictGet_dictInsert_self _ _ _
    have h0 : mark_current_items 0 o f (mark_current_items 2 o f objs)
        = dictInsert o
            { type := e.type, functions := dictInsert f 0 (dictInsert f 2 e.functions),
              status := 0 } objs := by
      rw [mark_current_items, hget2]
      show dictInsert o
          { type := e.type, functions := dictInsert f 0 (dictInsert f 2 e.functions),
            status := 0 } (mark_current_items 2 o f objs) = _
      rw [h2, dictInsert_dictInsert_same]
    rw [h0]
    have he : e.functions.countP (fun q => q.2 == 2) = 0 :=
      mapSum_zero_of_mem (by rw [runningFuncCount] at hfun; exact hfun) hmem
    constructor
    · rw [runningObjCount,
        countP_dictInsert_of_zero _ (by rw [runningObjCount] at hobj; exact hobj)]
      simp
    · rw [runningFuncCount,
        mapSum_dictInsert_of_zero _ (by rw [runningFuncCount] at hfun; exact hfun)]
      simp only []
      rw [dictInsert_dictInsert_same, countP_dictInsert_of_zero _ he]
      simp

/-- Along any trace started with no running marks, each step's
during-execution snapshot holds at most one running object and at most one
running function entry, and each post-state holds none. -/
theorem recordsOf_running (env : RunEnv) :
    ∀ (q : List (String × String)) (c : Nat) (objs : List (String × ObjEntry)),
      runningObjCount objs = 0 → runningFuncCount objs = 0 →
      ∀ r ∈ recordsOf env c objs q,
        (runningObjCount r.snapshot ≤ 1 ∧ runningFuncCount r.snapshot ≤ 1)
        ∧ (runningObjCount r.postState = 0 ∧ runningFuncCount r.postState = 0) := by
  intro q
  induction q with
  | nil => intro c objs _ _ r hr; simp [recordsOf] at hr
  | cons p rest ih =>
    intro c objs hobj hfun r hr
    obtain ⟨o, f⟩ := p
    rw [recordsOf] at hr
    rcases List.mem_cons.mp hr with h' | h'
    · subst h'
      exact ⟨mark2_counts o f hobj hfun, mark20_counts_zero o f hobj hfun⟩
    · obtain ⟨hz0, hz1⟩ := mark20_counts_zero o f hobj hfun
      exact ih _ _ hz0 hz1 r h'

/-- C5: steps run strictly sequentially in FIFO order — the executed steps of
a whole run are exactly the queue, in queue order — and with no running marks
at the start, every during-execution snapshot contains at most one running
object and one running function entry (no two steps run concurrently). -/
theorem C5_fifo_one_at_a_time :
    ∀ (env : RunEnv) (fuel : Nat) (q : List (String × String)) (s : SchedState),
      q.length ≤ fuel →
      runningObjCount s.all_objects = 0 → runningFuncCount s.all_objects = 0 →
      stepsOf (drive env fuel q s).2 = q
      ∧ ∀ r ∈ (drive env fuel q s).2,
          runningObjCount r.snapshot ≤ 1 ∧ runningFuncCount r.snapshot ≤ 1 := by
  intro env fuel q s hq hobj hfun
  obtain ⟨d1, _, _, _, _, _⟩ := drive_spec env fuel q s hq
  constructor
  · rw [d1, stepsOf_recordsOf]
  · intro r hr
    rw [d1] at hr
    exact (recordsOf_running env q s.error_count s.all_objects hobj hfun r hr).1

/-- Witness for C5 on the concrete one-step run. -/
theorem C5_witness :
    stepsOf (drive calmEnv 1 [("a", "f")] state0).2 = [("a", "f")] := by
  exact (C5_fifo_one_at_a_time calmEnv 1 [("a", "f")] state0 (by decide) (by decide)
    (by decide)).1

theorem dispatch_mode_blocking_iff (env : RunEnv) (f : String) :
    dispatch_mode env f = DispatchMode.blocking
      ↔ ((env.flags f).mayavi || ((env.flags f).matplotlib && env.show_plots)) = true := by
  rw [dispatch_mode]
  by_cases h : ((env.flags f).mayavi || ((env.flags f).matplotlib && env.show_plots)) = true
  · rw [if_pos h]
    simp [h]
  · rw [if_neg h]
    simp [h]

/-- C6: a dispatched step runs blocking on the GUI thread exactly when its
function's `mayavi` flag is set, or its `matplotlib` flag is set and the
`show_plots` setting is enabled; all other steps go to the thread pool.  In
both cases the same error accounting applies: the record is errored exactly
when the function raised, and an errored record carries an error index. -/
theorem C6_blocking_dispatch :
    ∀ (env : RunEnv) (fuel : Nat) (q : List (String × String)) (s : SchedState),
      q.length ≤ fuel →
      ∀ r ∈ (drive env fuel q s).2,
        (r.mode = DispatchMode.blocking
          ↔ ((env.flags r.func).mayavi
              || ((env.flags r.func).matplotlib && env.show_plots)) = true)
        ∧ r.errored = (env.outcome r.obj r.func).isSome
        ∧ (r.errored = true → r.errIdx.isSome) := by
  intro env fuel q s hq r hr
  obtain ⟨d1, _, _, _, _, _⟩ := drive_spec env fuel q s hq
  rw [d1] at hr
  obtain ⟨hmode, herr, hidx⟩ := recordsOf_fields env q s.error_count s.all_objects r hr
  refine ⟨?_, herr, hidx⟩
  rw [hmode]
  exact dispatch_mode_blocking_iff env r.func

/-- The record produced by the one-step run of `calmEnv` from `state0`. -/
def rec0 : StepRecord where
  obj := "a"
  func := "f"
  mode := DispatchMode.threaded
  errored := false
  errIdx := none
  snapshot := [("a", { type := "MEEG", functions := [("f", 2)], status := 2 })]
  postState := [("a", { type := "MEEG", functions := [("f", 0)], status := 0 })]

/-- Witness for C6 at the concrete non-plot step, dispatched to the pool. -/
theorem C6_witness :
    (rec0.mode = DispatchMode.blocking
      ↔ ((calmEnv.flags rec0.func).mayavi
          || ((calmEnv.flags rec0.func).matplotlib && calmEnv.show_plots)) = true)
    ∧ rec0.errored = (calmEnv.outcome rec0.obj rec0.func).isSome := by
  have h := C6_blocking_dispatch calmEnv 1 [("a", "f")] state0 (by decide) rec0 (by decide)
  exact ⟨h.1, h.2.1⟩

/-! ### Status values (C3) -/

/-- C3 counterexample: the scheduler has no separate error status.  After the
one-step run whose function raises, the object and its function carry status
0 — exactly the same entry as after the successful run — even though the
exception was recorded in the errors mapping, so an errored step is not
distinguishable from a done step by status. -/
theorem C3_counterexample_no_error_status :
    dictGet "a" (drive boomEnv 1 [("a", "f")] state0).1.all_objects
      = dictGet "a" (drive calmEnv 1 [("a", "f")] state0).1.all_objects
    ∧ dictGet "a" (drive boomEnv 1 [("a", "f")] state0).1.all_objects
      = some { type := "MEEG", functions := [("f", 0)], status := 0 }
    ∧ (drive boomEnv 1 [("a", "f")] state0).1.errors ≠ [] := by
  refine ⟨?_, ?_, ?_⟩ <;> decide

/-- All object and function statuses lie in {0, 1, 2}. -/
def statusesIn012 (objs : List (String × ObjEntry)) : Prop :=
  ∀ p ∈ objs, (p.2.status = 0 ∨ p.2.status = 1 ∨ p.2.status = 2)
    ∧ ∀ fq ∈ p.2.functions, fq.2 = 0 ∨ fq.2 = 1 ∨ fq.2 = 2

theorem mark_statusesIn012 {objs : List (String × ObjEntry)} (v : Nat) (o f : String)
    (hv : v = 0 ∨ v = 1 ∨ v = 2) (h : statusesIn012 objs) :
    statusesIn012 (mark_current_items v o f objs) := by
  rw [mark_current_items]
  cases hg : dictGet o objs with
  | none => exact h
  | some e =>
    have hmem := dictGet_eq_some_mem hg
    intro p hp
    rcases mem_dictInsert hp with h' | h'
    · rw [h']
      refine ⟨hv, ?_⟩
      intro fq hfq
      rcases mem_dictInsert hfq with h'' | h''
      · rw [h'']
        exact hv
      · exact (h _ hmem).2 fq h''
    · exact h p h'

theorem recordsOf_statuses (env : RunEnv) :
    ∀ (q : List (String × String)) (c : Nat) (objs : List (String × ObjEntry)),
      statusesIn012 objs →
      ∀ r ∈ recordsOf env c objs q, statusesIn012 r.snapshot ∧ statusesIn012 r.postState := by
  intro q
  induction q with
  | nil => intro c objs _ r hr; simp [recordsOf] at hr
  | cons p rest ih =>
    intro c objs hs r hr
    obtain ⟨o, f⟩ := p
    rw [recordsOf] at hr
    have h2 : statusesIn012 (mark_current_items 2 o f objs) :=
      mark_statusesIn012 2 o f (by omega) hs
    have h0 : statusesIn012 (mark_current_items 0 o f (mark_current_items 2 o f objs)) :=
      mark_statusesIn012 0 o f (by omega) h2
    rcases List.mem_cons.mp hr with h' | h'
    · subst h'
      exact ⟨h2, h0⟩
    · exact ih _ _ h0 r h'

theorem objsAfterSteps_statuses :
    ∀ (q : List (String × String)) (objs : List (String × ObjEntry)),
      statusesIn012 objs → statusesIn012 (objsAfterSteps objs q) := by
  intro q
  induction q with
  | nil => intro objs h; exact h
  | cons p rest ih =>
    intro objs h
    obtain ⟨o, f⟩ := p
    rw [objsAfterSteps]
    exact ih _ (mark_statusesIn012 0 o f (by omega)
      (mark_statusesIn012 2 o f (by omega) h))

/-- Each record's post-state is its snapshot with the step's object and
function re-marked 0 — the same transformation whether or not the step
errored. -/
theorem recordsOf_post_mark (env : RunEnv) :
    ∀ (q : List (String × String)) (c : Nat) (objs : List (String × ObjEntry))
      (r : StepRecord), r ∈ recordsOf env c objs q →
      r.postState = mark_current_items 0 r.obj r.func r.snapshot := by
  intro q
  induction q with
  | nil => intro c objs r hr; simp [recordsOf] at hr
  | cons p rest ih =>
    intro c objs r hr
    obtain ⟨o, f⟩ := p
    rw [recordsOf] at hr
    rcases List.mem_cons.mp hr with h' | h'
    · subst h'
      rfl
    · exact ih _ _ r h'

theorem mark0_get {objs : List (String × ObjEntry)} {o : String} (f : String)
    {e : ObjEntry} (h : dictGet o objs = some e) :
    dictGet o (mark_current_items 0 o f objs)
      = some { type := e.type, functions := dictInsert f 0 e.functions, status := 0 } := by
  rw [mark_current_items, h]
  exact dictGet_dictInsert_self _ _ _

/-- C3 amended: throughout a run every per-object and per-function status
stays in the three-element set {0 = done, 1 = pending, 2 = running}; there is
no fourth (error) status: a step whose function raised is re-marked 0 by the
identical transformation as a successful step, so errored steps are
distinguishable only through the errors mapping. -/
theorem C3_amended_three_statuses :
    ∀ (env : RunEnv) (fuel : Nat) (q : List (String × String)) (s : SchedState),
      q.length ≤ fuel → statusesIn012 s.all_objects →
      (∀ r ∈ (drive env fuel q s).2, statusesIn012 r.snapshot ∧ statusesIn012 r.postState)
      ∧ statusesIn012 (drive env fuel q s).1.all_objects
      ∧ ∀ r ∈ (drive env fuel q s).2, ∀ e, dictGet r.obj r.snapshot = some e →
          dictGet r.obj r.postState
            = some { type := e.type, functions := dictInsert r.func 0 e.functions,
                     status := 0 }
          ∧ dictGet r.func (dictInsert r.func 0 e.functions) = some 0 := by
  intro env fuel q s hq hs
  obtain ⟨d1, _, d3, _, _, _⟩ := drive_spec env fuel q s hq
  refine ⟨?_, ?_, ?_⟩
  · intro r hr
    rw [d1] at hr
    exact recordsOf_statuses env q s.error_count s.all_objects hs r hr
  · rw [d3]
    exact objsAfterSteps_statuses q s.all_objects hs
  · intro r hr e he
    rw [d1] at hr
    have hpost := recordsOf_post_mark env q s.error_count s.all_objects r hr
    rw [hpost, mark0_get r.func he]
    exact ⟨rfl, dictGet_dictInsert_self _ _ _⟩

/-- The record produced by the one-step run of `boomEnv` from `state0`. -/
def recBoom : StepRecord where
  obj := "a"
  func := "f"
  mode := DispatchMode.threaded
  errored := true
  errIdx := some 0
  snapshot := [("a", { type := "MEEG", functions := [("f", 2)], status := 2 })]
  postState := [("a", { type := "MEEG", functions := [("f", 0)], status := 0 })]

/-- Witness for the amended C3 at the concrete errored step. -/
theorem C3_amended_witness :
    dictGet recBoom.obj recBoom.postState
      = some { type := "MEEG", functions := dictInsert "f" 0 [("f", 2)], status := 0 } := by
  have hs : statusesIn012 state0.all_objects := by
    intro p hp
    have hp' : p = ("a", { type := "MEEG", functions := [("f", 1)], status := 1 }) := by
      simpa [state0] using hp
    rw [hp']
    refine ⟨by simp, ?_⟩
    intro fq hfq
    have hfq' : fq = ("f", 1) := by simpa using hfq
    rw [hfq']
    simp
  have h := C3_amended_three_statuses boomEnv 1 [("a", "f")] state0 (by decide) hs
  have h3 := h.2.2 recBoom (by decide)
    { type := "MEEG", functions := [("f", 2)], status := 2 } (by decide)
  exact h3.1

/-! ## loading.py: the object/path-resolution layer -/

/-! ### `MEEG.__init__` subject-assignment resolution (loading.py lines 102-159, C9) -/

/-- The per-project assignment dicts consulted by `MEEG.__init__`. -/
structure ProjAssign where
  meeg_to_erm : List (String × String)
  meeg_to_fsmri : List (String × String)
  meeg_bad_channels : List (String × List String)
  meeg_event_id : List (String × List (String × Nat))
  sel_event_id : List (String × List String)
deriving Repr

/-- The only part of an `FSMRI` object the constructor logic depends on. -/
structure FSMRIRef where
  name : String
deriving Repr, DecidableEq

/-- The subject attributes `MEEG.__init__` resolves. -/
structure MEEGAttrs where
  erm : String
  fsmri : FSMRIRef
  bad_channels : List String
  event_id : List (String × Nat)
  sel_trials : List String
deriving Repr, DecidableEq

/-- The five try/except blocks of `MEEG.__init__`: every `KeyError` (and the
`RuntimeError` raised on an empty event-id/trials entry) is caught and
replaced by a default, so construction always succeeds (the function is
total). -/
def MEEG_init_attrs (pr : ProjAssign) (fsmriArg : Option FSMRIRef) (name : String) :
    MEEGAttrs where
  erm :=
    match dictGet name pr.meeg_to_erm with
    | some e => e
    | none => "None"
  fsmri :=
    match dictGet name pr.meeg_to_fsmri with
    | some fm =>
      match fsmriArg with
      | some fobj => if fobj.name = fm then fobj else ⟨fm⟩
      | none => ⟨fm⟩
    | none => ⟨"None"⟩
  bad_channels :=
    match dictGet name pr.meeg_bad_channels with
    | some b => b
    | none => []
  event_id :=
    match dictGet name pr.meeg_event_id with
    | some e => if e.length = 0 then [] else e
    | none => []
  sel_trials :=
    match dictGet name pr.sel_event_id with
    | some t => if t.length = 0 then [] else t
    | none => []

/-- C9: `MEEG` construction never fails on missing subject assignments — the
resolution is total — and each missing (or, for event-id/trials, empty) entry
defaults to `'None'`, an FSMRI named `'None'`, `[]`, `{}` and `[]`
respectively. -/
theorem C9_meeg_init_defaults (pr : ProjAssign) (fsmriArg : Option FSMRIRef)
    (name : String) :
    (dictGet name pr.meeg_to_erm = none → (MEEG_init_attrs pr fsmriArg name).erm = "None")
    ∧ (dictGet name pr.meeg_to_fsmri = none
        → (MEEG_init_attrs pr fsmriArg name).fsmri.name = "None")
    ∧ (dictGet name pr.meeg_bad_channels = none
        → (MEEG_init_attrs pr fsmriArg name).bad_channels = [])
    ∧ ((dictGet name pr.meeg_event_id = none ∨ dictGet name pr.meeg_event_id = some [])
        → (MEEG_init_attrs pr fsmriArg name).event_id = [])
    ∧ ((dictGet name pr.sel_event_id = none ∨ dictGet name pr.sel_event_id = some [])
        → (MEEG_init_attrs pr fsmriArg name).sel_trials = []) := by
  refine ⟨?_, ?_, ?_, ?_, ?_⟩
  · intro h
    simp [MEEG_init_attrs, h]
  · intro h
    simp [MEEG_init_attrs, h]
  · intro h
    simp [MEEG_init_attrs, h]
  · rintro (h | h) <;> simp [MEEG_init_attrs, h]
  · rintro (h | h) <;> simp [MEEG_init_attrs, h]

/-- Witness for C9: a subject absent from every assignment dict. -/
theorem C9_witness :
    (MEEG_init_attrs ⟨[], [], [], [], []⟩ none "x").erm = "None"
    ∧ (MEEG_init_attrs ⟨[], [], [], [], []⟩ none "x").fsmri.name = "None"
    ∧ (MEEG_init_attrs ⟨[], [], [], [], []⟩ none "x").bad_channels = []
    ∧ (MEEG_init_attrs ⟨[], [], [], [], []⟩ none "x").event_id = []
    ∧ (MEEG_init_attrs ⟨[], [], [], [], []⟩ none "x").sel_trials = [] := by
  obtain ⟨h1, h2, h3, h4, h5⟩ := C9_meeg_init_defaults ⟨[], [], [], [], []⟩ none "x"
  exact ⟨h1 rfl, h2 rfl, h3 rfl, h4 (Or.inl rfl), h5 (Or.inl rfl)⟩

/-! ### `BaseLoading.save_file_params` and `MEEG.save_raw` (loading.py lines 49-59, 313-319, C7) -/

/-- Values stored in one `file_parameters` entry: the five provenance fields
plus copies of the preset's parameter values (parameter values abstracted as
`Nat`). -/
inductive FPV where
  | function (name : String)
  | objName (name : String)
  | path (p : String)
  | time (t : Nat)
  | size (n : Nat)
  | param (v : Nat)
deriving Repr, DecidableEq

/-- The slice of the `Project` object used by `save_file_params`. -/
structure Project where
  file_parameters : List (String × List (String × FPV))
  parameters : List (String × List (String × Nat))
  p_preset : String
deriving Repr, DecidableEq

/-- `Path(path).name`: the final path component. -/
def pathName (p : String) : String :=
  (p.splitOn "/").getLastD ""

/-- A minimal on-disk state: file path → size, for `getsize`. -/
structure FS where
  files : List (String × Nat)
deriving Repr, DecidableEq

/-- `os.path.getsize` (the saved file always exists on this call path). -/
def getsize (fs : FS) (path : String) : Nat :=
  (dictGet path fs.files).getD 0

/-- The dict built by `save_file_params` for one file: FUNCTION (the name of
the function two frames up the stack, i.e. the pipeline function that called
the `save_*` method), NAME, PATH, TIME, SIZE, then a copy of every parameter
of the preset. -/
def fileParamsDict (selfName caller path : String) (now fileSize : Nat)
    (params : List (String × Nat)) : List (String × FPV) :=
  let d1 := dictInsert "FUNCTION" (FPV.function caller) []
  let d2 := dictInsert "NAME" (FPV.objName selfName) d1
  let d3 := dictInsert "PATH" (FPV.path path) d2
  let d4 := dictInsert "TIME" (FPV.time now) d3
  let d5 := dictInsert "SIZE" (FPV.size fileSize) d4
  params.foldl (fun d pv => dictInsert pv.1 (FPV.param pv.2) d) d5

/-- `BaseLoading.save_file_params`: store the provenance dict for the file's
base name.  (A missing preset would raise `KeyError` in Python; the `none`
branch is unreachable on the calls below.) -/
def save_file_params (selfName selfPreset caller : String) (now fileSize : Nat)
    (pr : Project) (path : String) : Project :=
  let params :=
    match dictGet selfPreset pr.parameters with
    | some ps => ps
    | none => []
  { pr with
      file_parameters :=
        dictInsert (pathName path)
          (fileParamsDict selfName caller path now fileSize params) pr.file_parameters }

/-- The slice of a `MEEG` object used by `save_raw`. -/
structure MEEGFile where
  name : String
  p_preset : String
  raw_path : String
  raw : Option Nat
deriving Repr, DecidableEq

/-- `raw.save(self.raw_path, overwrite=True)`: the file appears on disk with
the size of the written object. -/
def raw_save (rawSize : Nat) (path : String) (fs : FS) : FS :=
  ⟨dictInsert path rawSize fs.files⟩

/-- `MEEG.save_raw`: cache the object, write the file, then record the file
parameters for the written path (`caller` is the pipeline function invoking
`save_raw`, `now` the current time). -/
def MEEG_save_raw (m : MEEGFile) (rawVal rawSize : Nat) (caller : String) (now : Nat)
    (pr : Project) (fs : FS) : MEEGFile × Project × FS :=
  let m' := { m with raw := some rawVal }
  let fs' := raw_save rawSize m.raw_path fs
  let pr' := save_file_params m.name m.p_preset caller now (getsize fs' m.raw_path)
    pr m.raw_path
  (m', pr', fs')

theorem dictGet_foldl_dictInsert_of_ne {α β : Type} (g : String × β → α) (k : String) :
    ∀ (l : List (String × β)) (d : List (String × α)), (∀ p ∈ l, p.1 ≠ k) →
      dictGet k (l.foldl (fun d p => dictInsert p.1 (g p) d) d) = dictGet k d := by
  intro l
  induction l with
  | nil => intro d _; rfl
  | cons p rest ih =>
    intro d hne
    rw [List.foldl_cons, ih _ (fun p hp => hne p (List.mem_cons_of_mem _ hp)),
      dictGet_dictInsert_ne _ _ (Ne.symm (hne p (List.mem_cons_self _ _)))]

theorem dictGet_foldl_dictInsert_nodup {α β : Type} (g : String × β → α) :
    ∀ (l : List (String × β)) (d : List (String × α)), (l.map Prod.fst).Nodup →
      ∀ p ∈ l, dictGet p.1 (l.foldl (fun d p => dictInsert p.1 (g p) d) d) = some (g p) := by
  intro l
  induction l with
  | nil => intro d _ p hp; simp at hp
  | cons q rest ih =>
    intro d hnd p hp
    rw [List.map_cons, List.nodup_cons] at hnd
    rcases List.mem_cons.mp hp with h' | h'
    · subst h'
      rw [List.foldl_cons,
        dictGet_foldl_dictInsert_of_ne g p.1 rest _
          (fun r hr hrq => hnd.1 (hrq ▸ List.mem_map.mpr ⟨r, hr, rfl⟩)),
        dictGet_dictInsert_self]
    · exact ih _ hnd.2 p h'

theorem fileParamsDict_meta (selfName caller path : String) (now fileSize : Nat)
    (params : List (String × Nat))
    (hres : ∀ pv ∈ params,
      pv.1 ∉ (["FUNCTION", "NAME", "PATH", "TIME", "SIZE"] : List String)) :
    dictGet "FUNCTION" (fileParamsDict selfName caller path now fileSize params)
        = some (FPV.function caller)
    ∧ dictGet "NAME" (fileParamsDict selfName caller path now fileSize params)
        = some (FPV.objName selfName)
    ∧ dictGet "PATH" (fileParamsDict selfName caller path now fileSize params)
        = some (FPV.path path)
    ∧ dictGet "TIME" (fileParamsDict selfName caller path now fileSize params)
        = some (FPV.time now)
    ∧ dictGet "SIZE" (fileParamsDict selfName caller path now fileSize params)
        = some (FPV.size fileSize) := by
  rw [fileParamsDict]
  refine ⟨?_, ?_, ?_, ?_, ?_⟩ <;>
    · rw [dictGet_foldl_dictInsert_of_ne _ _ _ _
        (fun p hp h => (hres p hp) (h ▸ by simp))]
      rfl

/-- C7: after `MEEG.save_raw` writes the raw file, the project's
`file_parameters` entry under the file's base name holds the calling
function's name, the object's name, the path, the timestamp, the written
file's size on disk, and a copy of every parameter of the object's (currently
selected) parameter preset. -/
theorem C7_save_raw_provenance (m : MEEGFile) (rawVal rawSize : Nat) (caller : String)
    (now : Nat) (pr : Project) (fs : FS) (params : List (String × Nat))
    (hpreset : dictGet m.p_preset pr.parameters = some params)
    (hres : ∀ pv ∈ params,
      pv.1 ∉ (["FUNCTION", "NAME", "PATH", "TIME", "SIZE"] : List String))
    (hnd : (params.map Prod.fst).Nodup) :
    ∃ d, dictGet (pathName m.raw_path)
        (MEEG_save_raw m rawVal rawSize caller now pr fs).2.1.file_parameters = some d
      ∧ dictGet "FUNCTION" d = some (FPV.function caller)
      ∧ dictGet "NAME" d = some (FPV.objName m.name)
      ∧ dictGet "PATH" d = some (FPV.path m.raw_path)
      ∧ dictGet "TIME" d = some (FPV.time now)
      ∧ dictGet "SIZE" d = some (FPV.size (getsize
          (MEEG_save_raw m rawVal rawSize caller now pr fs).2.2 m.raw_path))
      ∧ (∀ pv ∈ params, dictGet pv.1 d = some (FPV.param pv.2)) := by
  have hfp : (MEEG_save_raw m rawVal rawSize caller now pr fs).2.1.file_parameters
      = dictInsert (pathName m.raw_path)
          (fileParamsDict m.name caller m.raw_path now
            (getsize (MEEG_save_raw m rawVal rawSize caller now pr fs).2.2 m.raw_path)
            params)
          pr.file_parameters := by
    simp only [MEEG_save_raw, save_file_params, hpreset]
  obtain ⟨h1, h2, h3, h4, h5⟩ := fileParamsDict_meta m.name caller m.raw_path now
    (getsize (MEEG_save_raw m rawVal rawSize caller now pr fs).2.2 m.raw_path) params hres
  refine ⟨_, ?_, h1, h2, h3, h4, h5, ?_⟩
  · rw [hfp, dictGet_dictInsert_self]
  · intro pv hpv
    rw [fileParamsDict]
    exact dictGet_foldl_dictInsert_nodup _ params _ hnd pv hpv

/-- Witness for C7 at a concrete one-parameter preset. -/
theorem C7_witness :
    ∃ d, dictGet (pathName "data/a/a-raw.fif")
        (MEEG_save_raw ⟨"a", "Default", "data/a/a-raw.fif", none⟩ 5 77 "plot_raw" 12
          ⟨[], [("Default", [("lowpass", 40)])], "Default"⟩ ⟨[]⟩).2.1.file_parameters
        = some d
      ∧ dictGet "FUNCTION" d = some (FPV.function "plot_raw")
      ∧ dictGet "lowpass" d = some (FPV.param 40) := by
  obtain ⟨d, h1, h2, _, _, _, _, h7⟩ :=
    C7_save_raw_provenance ⟨"a", "Default", "data/a/a-raw.fif", none⟩ 5 77 "plot_raw" 12
      ⟨[], [("Default", [("lowpass", 40)])], "Default"⟩ ⟨[]⟩ [("lowpass", 40)]
      (by decide) (by decide) (by decide)
  exact ⟨d, h1, h2, h7 ("lowpass", 40) (by decide)⟩

/-! ### Lazy caching of the `load_*` methods (loading.py, C8)

Every data-loading `load_*` method of `MEEG`, `FSMRI` and `Group` is embedded
below over a per-class cache state carrying a counter `reads` of file-read
(open) attempts.  File payloads are abstracted as `Nat`; a loader that builds
a dict/list from several files stores `combine` of the values it read.  The
`load_attributes`/`load_paths` methods read no files (they only reset the
cache attributes and compute path strings) and set every cache attribute
below to `none` — except `_morphed_stcs`, which `load_attributes` (lines
161-187) never initializes, modelled as an absent attribute. -/

/-- The external reading/transformation functions the loaders call (one per
`mne`/`numpy`/`pickle` entry point used; payloads abstracted as `Nat`). -/
structure IOEnv where
  read_raw_fif : String → Nat
  read_info : String → Nat
  read_events : String → Nat
  read_epochs : String → Nat
  pickle_load : String → Nat
  read_ica : String → Nat
  read_evokeds : String → Nat
  read_tfrs : String → Nat
  read_trans : String → Nat
  read_forward_solution : String → Nat
  read_cov : String → Nat
  read_inverse_operator : String → Nat
  read_source_estimate : String → Nat
  read_dipole : String → Nat
  np_load : String → Nat
  read_source_spaces : String → Nat
  read_bem_surfaces : String → Nat
  read_bem_solution : String → Nat
  read_source_morph : String → Nat
  read_labels_from_annot : String → String → String → Nat
  pick : Nat → Nat
  updateInfo : Nat → Nat
  combine : List Nat → Nat
  path_exists : String → Bool
  morph_new_fails : Bool

/-- The cache slice of a `MEEG` object: the path attributes set by
`load_paths`, the parameters consulted by branching/looping loaders, the
cache attributes set to `None` by `load_attributes`, the never-initialized
`_morphed_stcs` (`none` = attribute absent, `some none` = attribute present
and `None`), and the read counter. -/
structure MEEGLd where
  name : String
  p_preset : String
  save_dir : String
  raw_path : String
  raw_filtered_path : String
  erm_path : String
  erm_filtered_path : String
  events_path : String
  epochs_path : String
  reject_log_path : String
  ica_path : String
  ica_epochs_path : String
  evokeds_path : String
  power_tfr_path : String
  itc_tfr_path : String
  trans_path : String
  forward_path : String
  calm_cov_path : String
  erm_cov_path : String
  cov_path : String
  inverse_path : String
  sel_trials : List String
  erm : String
  calm_noise_cov : Bool
  erm_noise_cov : Bool
  target_labels : List String
  con_methods : List String
  ecd_times : List String
  mixn_dip_count : Nat
  _info : Option Nat
  _raw : Option Nat
  _raw_filtered : Option Nat
  _erm_filtered : Option Nat
  _events : Option Nat
  _epochs : Option Nat
  _reject_log : Option Nat
  _ica : Option Nat
  _ica_epochs : Option Nat
  _evokeds : Option Nat
  _power_tfr : Option Nat
  _itc_tfr : Option Nat
  _trans : Option Nat
  _forward : Option Nat
  _noise_cov : Option Nat
  _inverse : Option Nat
  _stcs : Option Nat
  _morphed_stcs : Option (Option Nat)
  _mixn_stcs : Option Nat
  _mixn_dips : Option Nat
  _ecd_dips : Option Nat
  _ltc : Option Nat
  _connectivity : Option Nat
  reads : Nat
deriving Repr, DecidableEq

/-- `MEEG.load_info` (lines 279-284). -/
def MEEG_load_info (io : IOEnv) (m : MEEGLd) : Nat × MEEGLd :=
  match m._info with
  | none =>
    let v := io.read_info m.raw_path
    (v, { m with _info := some v, reads := m.reads + 1 })
  | some v => (v, m)

/-- `MEEG.load_raw` (lines 304-311): read the file only when `self._raw` is
`None`, then re-apply `pick_types_helper` and `_update_raw_info` to the
cached object and return it. -/
def MEEG_load_raw (io : IOEnv) (m : MEEGLd) : Nat × MEEGLd :=
  let (r0, m0) :=
    match m._raw with
    | none => (io.read_raw_fif m.raw_path, { m with reads := m.reads + 1 })
    | some r => (r, m)
  let r1 := io.updateInfo (io.pick r0)
  (r1, { m0 with _raw := some r1 })

/-- `MEEG.load_filtered` (lines 321-329): read at most once into
`_raw_filtered` and re-apply `pick_types_helper`; but then
`_update_raw_info` dereferences `self._raw`, so when no raw object is in
memory the call raises `AttributeError` — after the read and the caching
already happened. -/
def MEEG_load_filtered (io : IOEnv) (m : MEEGLd) : Except String Nat × MEEGLd :=
  let (r0, m0) :=
    match m._raw_filtered with
    | none => (io.read_raw_fif m.raw_filtered_path, { m with reads := m.reads + 1 })
    | some r => (r, m)
  let r1 := io.pick r0
  let m1 := { m0 with _raw_filtered := some r1 }
  match m1._raw with
  | none =>
    (Except.error "AttributeError: NoneType object has no attribute info", m1)
  | some r => (Except.ok r1, { m1 with _raw := some (io.updateInfo r) })

/-- `MEEG.load_erm` (lines 340-344): "unfiltered erm is not considered
important enough to be a obj-attribute" — the file is read on every call,
with no caching. -/
def MEEG_load_erm (io : IOEnv) (m : MEEGLd) : Nat × MEEGLd :=
  (io.pick (io.read_raw_fif m.erm_path), { m with reads := m.reads + 1 })

/-- `MEEG.load_erm_filtered` (lines 346-350). -/
def MEEG_load_erm_filtered (io : IOEnv) (m : MEEGLd) : Nat × MEEGLd :=
  match m._erm_filtered with
  | none =>
    let v := io.read_raw_fif m.erm_filtered_path
    (v, { m with _erm_filtered := some v, reads := m.reads + 1 })
  | some v => (v, m)

/-- `MEEG.load_events` (lines 358-362). -/
def MEEG_load_events (io : IOEnv) (m : MEEGLd) : Nat × MEEGLd :=
  match m._events with
  | none =>
    let e := io.read_events m.events_path
    (e, { m with _events := some e, reads := m.reads + 1 })
  | some e => (e, m)

/-- `MEEG.load_epochs` (lines 369-375): cached read, `pick_types_helper`
re-applied on every call. -/
def MEEG_load_epochs (io : IOEnv) (m : MEEGLd) : Nat × MEEGLd :=
  let (r0, m0) :=
    match m._epochs with
    | none => (io.read_epochs m.epochs_path, { m with reads := m.reads + 1 })
    | some r => (r, m)
  let r1 := io.pick r0
  (r1, { m0 with _epochs := some r1 })

/-- `MEEG.load_reject_log` (lines 382-387). -/
def MEEG_load_reject_log (io : IOEnv) (m : MEEGLd) : Nat × MEEGLd :=
  match m._reject_log with
  | none =>
    let v := io.pickle_load m.reject_log_path
    (v, { m with _reject_log := some v, reads := m.reads + 1 })
  | some v => (v, m)

/-- `MEEG.load_ica` (lines 395-399). -/
def MEEG_load_ica (io : IOEnv) (m : MEEGLd) : Nat × MEEGLd :=
  match m._ica with
  | none =>
    let v := io.read_ica m.ica_path
    (v, { m with _ica := some v, reads := m.reads + 1 })
  | some v => (v, m)

/-- `MEEG.load_ica_epochs` (lines 406-410). -/
def MEEG_load_ica_epochs (io : IOEnv) (m : MEEGLd) : Nat × MEEGLd :=
  match m._ica_epochs with
  | none =>
    let v := io.read_epochs m.ica_epochs_path
    (v, { m with _ica_epochs := some v, reads := m.reads + 1 })
  | some v => (v, m)

/-- `MEEG.load_evokeds` (lines 417-424): cached read; the element-wise
`pick_types_helper` loop over the evoked list is abstracted to one
transformation of the aggregated payload, re-applied on every call. -/
def MEEG_load_evokeds (io : IOEnv) (m : MEEGLd) : Nat × MEEGLd :=
  let (r0, m0) :=
    match m._evokeds with
    | none => (io.read_evokeds m.evokeds_path, { m with reads := m.reads + 1 })
    | some r => (r, m)
  let r1 := io.pick r0
  (r1, { m0 with _evokeds := some r1 })

/-- `MEEG.load_power_tfr` (lines 431-435). -/
def MEEG_load_power_tfr (io : IOEnv) (m : MEEGLd) : Nat × MEEGLd :=
  match m._power_tfr with
  | none =>
    let v := io.read_tfrs m.power_tfr_path
    (v, { m with _power_tfr := some v, reads := m.reads + 1 })
  | some v => (v, m)

/-- `MEEG.load_itc_tfr` (lines 442-446). -/
def MEEG_load_itc_tfr (io : IOEnv) (m : MEEGLd) : Nat × MEEGLd :=
  match m._itc_tfr with
  | none =>
    let v := io.read_tfrs m.itc_tfr_path
    (v, { m with _itc_tfr := some v, reads := m.reads + 1 })
  | some v => (v, m)

/-- `MEEG.load_transformation` (lines 454-458). -/
def MEEG_load_transformation (io : IOEnv) (m : MEEGLd) : Nat × MEEGLd :=
  match m._trans with
  | none =>
    let v := io.read_trans m.trans_path
    (v, { m with _trans := some v, reads := m.reads + 1 })
  | some v => (v, m)

/-- `MEEG.load_forward` (lines 460-464). -/
def MEEG_load_forward (io : IOEnv) (m : MEEGLd) : Nat × MEEGLd :=
  match m._forward with
  | none =>
    let v := io.read_forward_solution m.forward_path
    (v, { m with _forward := some v, reads := m.reads + 1 })
  | some v => (v, m)

/-- `MEEG.load_noise_covariance` (lines 471-484): on the first call one of
the three covariance files is read, chosen by `calm_noise_cov`, then
`erm == 'None' or erm_noise_cov is False`, else the ERM covariance. -/
def MEEG_load_noise_covariance (io : IOEnv) (m : MEEGLd) : Nat × MEEGLd :=
  match m._noise_cov with
  | none =>
    let path :=
      if m.calm_noise_cov then m.calm_cov_path
      else if m.erm = "None" || m.erm_noise_cov = false then m.cov_path
      else m.erm_cov_path
    let v := io.read_cov path
    (v, { m with _noise_cov := some v, reads := m.reads + 1 })
  | some v => (v, m)

/-- `MEEG.load_inverse_operator` (lines 498-502). -/
def MEEG_load_inverse_operator (io : IOEnv) (m : MEEGLd) : Nat × MEEGLd :=
  match m._inverse with
  | none =>
    let v := io.read_inverse_operator m.inverse_path
    (v, { m with _inverse := some v, reads := m.reads + 1 })
  | some v => (v, m)

/-- `join(self.save_dir, f'{self.name}_{trial}_{self.p_preset}')`
(`load_paths`, lines 222-223). -/
def stcPath (m : MEEGLd) (trial : String) : String :=
  m.save_dir ++ "/" ++ m.name ++ "_" ++ trial ++ "_" ++ m.p_preset

/-- `MEEG.load_source_estimates` (lines 509-516): one source-estimate read
per selected trial, all on the first call. -/
def MEEG_load_source_estimates (io : IOEnv) (m : MEEGLd) : Nat × MEEGLd :=
  match m._stcs with
  | none =>
    let vs := m.sel_trials.map (fun trial => io.read_source_estimate (stcPath m trial))
    let v := io.combine vs
    (v, { m with _stcs := some v, reads := m.reads + m.sel_trials.length })
  | some v => (v, m)

/-- The morphed source-estimate path (`load_paths`, lines 225-226). -/
def morphedStcPath (m : MEEGLd) (trial : String) : String :=
  stcPath m trial ++ "-morphed"

/-- `MEEG.load_morphed_source_estimates` (lines 528-533): the cache
attribute `_morphed_stcs` is never created by `load_attributes`, so on a
fresh object the very first statement `if self._morphed_stcs is None:`
raises `AttributeError` before any file is read; and the method has no
`return` statement, so even when the attribute exists (e.g. set by
`save_morphed_source_estimates`) a call returns `None`, never the loaded
objects. -/
def MEEG_load_morphed_source_estimates (io : IOEnv) (m : MEEGLd) :
    Except String (Option Nat) × MEEGLd :=
  match m._morphed_stcs with
  | none =>
    (Except.error "AttributeError: MEEG object has no attribute _morphed_stcs", m)
  | some cache =>
    match cache with
    | none =>
      let vs := m.sel_trials.map (fun trial => io.read_source_estimate (morphedStcPath m trial))
      (Except.ok none,
        { m with _morphed_stcs := some (some (io.combine vs)),
                 reads := m.reads + m.sel_trials.length })
    | some _ => (Except.ok none, m)

/-- The mixed-norm dipole path (`load_mixn_dipoles`, lines 552-553). -/
def mixnDipPath (m : MEEGLd) (trial : String) (idx : Nat) : String :=
  m.save_dir ++ "/mixn_dipoles/" ++ m.name ++ "_" ++ trial ++ "_" ++ m.p_preset
    ++ "-mixn-dip" ++ pyNatStr idx ++ ".dip"

/-- `MEEG.load_mixn_dipoles` (lines 545-559): per selected trial, one dipole
read per file in the `mixn_dipoles` directory (`mixn_dip_count` =
`len(listdir(...))`), all on the first call. -/
def mixnDipPaths (m : MEEGLd) : List String :=
  m.sel_trials.flatMap
    (fun trial => (List.range m.mixn_dip_count).map (fun idx => mixnDipPath m trial idx))

def MEEG_load_mixn_dipoles (io : IOEnv) (m : MEEGLd) : Nat × MEEGLd :=
  match m._mixn_dips with
  | none =>
    let v := io.combine ((mixnDipPaths m).map io.read_dipole)
    (v, { m with _mixn_dips := some v, reads := m.reads + (mixnDipPaths m).length })
  | some v => (v, m)

/-- `MEEG.load_mixn_source_estimates` (lines 578-586). -/
def MEEG_load_mixn_source_estimates (io : IOEnv) (m : MEEGLd) : Nat × MEEGLd :=
  match m._mixn_stcs with
  | none =>
    let vs := m.sel_trials.map
      (fun trial => io.read_source_estimate (stcPath m trial ++ "-mixn"))
    let v := io.combine vs
    (v, { m with _mixn_stcs := some v, reads := m.reads + m.sel_trials.length })
  | some v => (v, m)

/-- The ECD dipole path (`load_ecd`, lines 601-602). -/
def ecdDipPath (m : MEEGLd) (trial dip : String) : String :=
  m.save_dir ++ "/ecd_dipoles/" ++ m.name ++ "_" ++ trial ++ "_" ++ m.p_preset ++ "_"
    ++ dip ++ "-ecd-dip.dip"

/-- `MEEG.load_ecd` (lines 595-604): one dipole read per (trial, ecd-time),
all on the first call. -/
def ecdPaths (m : MEEGLd) : List String :=
  m.sel_trials.flatMap (fun trial => m.ecd_times.map (fun dip => ecdDipPath m trial dip))

def MEEG_load_ecd (io : IOEnv) (m : MEEGLd) : Nat × MEEGLd :=
  match m._ecd_dips with
  | none =>
    let v := io.combine ((ecdPaths m).map io.read_dipole)
    (v, { m with _ecd_dips := some v, reads := m.reads + (ecdPaths m).length })
  | some v => (v, m)

/-- The label time-course path (`load_ltc`, lines 624-625). -/
def ltcPath (m : MEEGLd) (trial label : String) : String :=
  m.save_dir ++ "/label_time_course/" ++ m.name ++ "_" ++ trial ++ "_" ++ m.p_preset
    ++ "_" ++ label ++ ".npy"

/-- `MEEG.load_ltc` (lines 618-628): one `np.load` per (trial, target
label), all on the first call. -/
def ltcPaths (m : MEEGLd) : List String :=
  m.sel_trials.flatMap (fun trial => m.target_labels.map (fun label => ltcPath m trial label))

def MEEG_load_ltc (io : IOEnv) (m : MEEGLd) : Nat × MEEGLd :=
  match m._ltc with
  | none =>
    let v := io.combine ((ltcPaths m).map io.np_load)
    (v, { m with _ltc := some v, reads := m.reads + (ltcPaths m).length })
  | some v => (v, m)

/-- The connectivity path (`load_connectivity`, line 649). -/
def conPath (m : MEEGLd) (trial con_method : String) : String :=
  m.save_dir ++ "/" ++ m.name ++ "_" ++ trial ++ "_" ++ m.p_preset ++ "_"
    ++ con_method ++ ".npy"

/-- `MEEG.load_connectivity` (lines 642-654): one `np.load` attempt per
(trial, connectivity method) on the first call, missing files skipped via
`except FileNotFoundError` (`reads` counts the attempts). -/
def conPaths (m : MEEGLd) : List String :=
  m.sel_trials.flatMap (fun trial => m.con_methods.map (fun cm => conPath m trial cm))

def MEEG_load_connectivity (io : IOEnv) (m : MEEGLd) : Nat × MEEGLd :=
  match m._connectivity with
  | none =>
    let v := io.combine (((conPaths m).filter io.path_exists).map io.np_load)
    (v, { m with _connectivity := some v, reads := m.reads + (conPaths m).length })
  | some v => (v, m)

/-- The cache slice of an `FSMRI` object. -/
structure FSMRILd where
  name : String
  parcellation : String
  subjects_dir : String
  source_space_path : String
  bem_model_path : String
  bem_solution_path : String
  vol_source_space_path : String
  source_morph_path : String
  old_source_morph_path : String
  _source_space : Option Nat
  _bem_model : Option Nat
  _bem_solution : Option Nat
  _vol_source_space : Option Nat
  _source_morph : Option Nat
  _labels : Option Nat
  reads : Nat
deriving Repr, DecidableEq

/-- `FSMRI.load_source_space` (lines 717-721). -/
def FSMRI_load_source_space (io : IOEnv) (s : FSMRILd) : Nat × FSMRILd :=
  match s._source_space with
  | none =>
    let v := io.read_source_spaces s.source_space_path
    (v, { s with _source_space := some v, reads := s.reads + 1 })
  | some v => (v, s)

/-- `FSMRI.load_bem_model` (lines 728-732). -/
def FSMRI_load_bem_model (io : IOEnv) (s : FSMRILd) : Nat × FSMRILd :=
  match s._bem_model with
  | none =>
    let v := io.read_bem_surfaces s.bem_model_path
    (v, { s with _bem_model := some v, reads := s.reads + 1 })
  | some v => (v, s)

/-- `FSMRI.load_bem_solution` (lines 739-743). -/
def FSMRI_load_bem_solution (io : IOEnv) (s : FSMRILd) : Nat × FSMRILd :=
  match s._bem_solution with
  | none =>
    let v := io.read_bem_solution s.bem_solution_path
    (v, { s with _bem_solution := some v, reads := s.reads + 1 })
  | some v => (v, s)

/-- `FSMRI.load_vol_source_space` (lines 750-754). -/
def FSMRI_load_vol_source_space (io : IOEnv) (s : FSMRILd) : Nat × FSMRILd :=
  match s._vol_source_space with
  | none =>
    let v := io.read_source_spaces s.vol_source_space_path
    (v, { s with _vol_source_space := some v, reads := s.reads + 1 })
  | some v => (v, s)

/-- `FSMRI.load_source_morph` (lines 761-768): on the first call the
preset-spacing path is tried; on `OSError` (`morph_new_fails`) the
old-style path is read instead — two read attempts in that case, and in
either case nothing is read again once `_source_morph` is set. -/
def FSMRI_load_source_morph (io : IOEnv) (s : FSMRILd) : Nat × FSMRILd :=
  match s._source_morph with
  | none =>
    if io.morph_new_fails then
      let v := io.read_source_morph s.old_source_morph_path
      (v, { s with _source_morph := some v, reads := s.reads + 2 })
    else
      let v := io.read_source_morph s.source_morph_path
      (v, { s with _source_morph := some v, reads := s.reads + 1 })
  | some v => (v, s)

/-- `FSMRI.load_parc_labels` (lines 775-779). -/
def FSMRI_load_parc_labels (io : IOEnv) (s : FSMRILd) : Nat × FSMRILd :=
  match s._labels with
  | none =>
    let v := io.read_labels_from_annot s.name s.parcellation s.subjects_dir
    (v, { s with _labels := some v, reads := s.reads + 1 })
  | some v => (v, s)

/-- The cache slice of a `Group` object. -/
structure GroupLd where
  name : String
  p_preset : String
  tfr_method : String
  sel_trials : List String
  target_labels : List String
  con_methods : List String
  ga_evokeds_path : String
  ga_tfr_folder : String
  ga_stc_folder : String
  ga_ltc_folder : String
  ga_con_folder : String
  _ga_evokeds : Option Nat
  _ga_tfr : Option Nat
  _ga_stcs : Option Nat
  _ga_ltc : Option Nat
  _ga_connect : Option Nat
  reads : Nat
deriving Repr, DecidableEq

/-- `Group.load_ga_evokeds` (lines 847-851). -/
def Group_load_ga_evokeds (io : IOEnv) (g : GroupLd) : Nat × GroupLd :=
  match g._ga_evokeds with
  | none =>
    let v := io.read_evokeds g.ga_evokeds_path
    (v, { g with _ga_evokeds := some v, reads := g.reads + 1 })
  | some v => (v, g)

/-- The grand-average TFR path (`load_ga_tfr`, lines 862-863). -/
def gaTfrPath (g : GroupLd) (trial : String) : String :=
  g.ga_tfr_folder ++ "/" ++ g.name ++ "_" ++ trial ++ "_" ++ g.p_preset ++ "_"
    ++ g.tfr_method ++ "-tfr.h5"

/-- `Group.load_ga_tfr` (lines 858-867): one TFR read per selected trial
(the `[0]` indexing of the returned list is absorbed in the payload
abstraction), all on the first call. -/
def Group_load_ga_tfr (io : IOEnv) (g : GroupLd) : Nat × GroupLd :=
  match g._ga_tfr with
  | none =>
    let vs := g.sel_trials.map (fun trial => io.read_tfrs (gaTfrPath g trial))
    let v := io.combine vs
    (v, { g with _ga_tfr := some v, reads := g.reads + g.sel_trials.length })
  | some v => (v, g)

/-- The grand-average source-estimate path (`load_ga_source_estimate`,
lines 879-880). -/
def gaStcPath (g : GroupLd) (trial : String) : String :=
  g.ga_stc_folder ++ "/" ++ g.name ++ "_" ++ trial ++ "_" ++ g.p_preset

/-- `Group.load_ga_source_estimate` (lines 875-883). -/
def Group_load_ga_source_estimate (io : IOEnv) (g : GroupLd) : Nat × GroupLd :=
  match g._ga_stcs with
  | none =>
    let vs := g.sel_trials.map (fun trial => io.read_source_estimate (gaStcPath g trial))
    let v := io.combine vs
    (v, { g with _ga_stcs := some v, reads := g.reads + g.sel_trials.length })
  | some v => (v, g)

/-- The grand-average label time-course path (`load_ga_ltc`,
lines 899-900). -/
def gaLtcPath (g : GroupLd) (trial label : String) : String :=
  g.ga_ltc_folder ++ "/" ++ g.name ++ "_" ++ trial ++ "_" ++ g.p_preset ++ "_"
    ++ label ++ ".npy"

/-- `Group.load_ga_ltc` (lines 893-906): one `np.load` attempt per (trial,
target label) on the first call, missing files skipped via
`except FileNotFoundError` (`reads` counts the attempts). -/
def gaLtcPaths (g : GroupLd) : List String :=
  g.sel_trials.flatMap (fun trial => g.target_labels.map (fun label => gaLtcPath g trial label))

def Group_load_ga_ltc (io : IOEnv) (g : GroupLd) : Nat × GroupLd :=
  match g._ga_ltc with
  | none =>
    let v := io.combine (((gaLtcPaths g).filter io.path_exists).map io.np_load)
    (v, { g with _ga_ltc := some v, reads := g.reads + (gaLtcPaths g).length })
  | some v => (v, g)

/-- The grand-average connectivity path (`load_ga_connect`,
lines 923-924). -/
def gaConPath (g : GroupLd) (trial con_method : String) : String :=
  g.ga_con_folder ++ "/" ++ g.name ++ "_" ++ trial ++ "_" ++ g.p_preset ++ "_"
    ++ con_method ++ ".npy"

/-- `Group.load_ga_connect` (lines 917-930): one `np.load` attempt per
(trial, connectivity method) on the first call, missing files skipped via
`except FileNotFoundError`. -/
def gaConPaths (g : GroupLd) : List String :=
  g.sel_trials.flatMap (fun trial => g.con_methods.map (fun cm => gaConPath g trial cm))

def Group_load_ga_connect (io : IOEnv) (g : GroupLd) : Nat × GroupLd :=
  match g._ga_connect with
  | none =>
    let v := io.combine (((gaConPaths g).filter io.path_exists).map io.np_load)
    (v, { g with _ga_connect := some v, reads := g.reads + (gaConPaths g).length })
  | some v => (v, g)

/-- If one call preserves a predicate and performs no reads while it holds,
iterating from a state satisfying it never reads. -/
theorem iterate_stable {α : Type} (g : α → α) (reads : α → Nat) (P : α → Prop)
    (hstep : ∀ a, P a → P (g a) ∧ reads (g a) = reads a) :
    ∀ (k : Nat) (a : α), P a → P (g^[k] a) ∧ reads (g^[k] a) = reads a := by
  intro k
  induction k with
  | zero => intro a ha; exact ⟨ha, rfl⟩
  | succ k ih =>
    intro a ha
    rw [Function.iterate_succ_apply]
    obtain ⟨hP, hR⟩ := hstep a ha
    obtain ⟨hP2, hR2⟩ := ih _ hP
    exact ⟨hP2, by rw [hR2, hR]⟩

/-- Generic lazy-caching argument: if a loader's first call on an empty
cache fills the cache and performs its reads, and any call on a filled
cache keeps it filled and performs no reads, then over any number of calls
the files are read exactly once (by the first call). -/
theorem cached_loader_spec {α δ : Type} (step : α → α) (reads : α → Nat)
    (cache : α → Option δ) (n : α → Nat)
    (h_first : ∀ a, cache a = none →
      (cache (step a)).isSome = true ∧ reads (step a) = reads a + n a)
    (h_cached : ∀ a, (cache a).isSome = true →
      (cache (step a)).isSome = true ∧ reads (step a) = reads a) :
    ∀ (k : Nat) (a : α), cache a = none →
      (cache (step^[k + 1] a)).isSome = true
      ∧ reads (step^[k + 1] a) = reads a + n a := by
  intro k a ha
  rw [Function.iterate_succ_apply]
  obtain ⟨hs, hr⟩ := h_first a ha
  obtain ⟨hs2, hr2⟩ := iterate_stable step reads (fun a => (cache a).isSome = true)
    h_cached k (step a) hs
  exact ⟨hs2, by rw [hr2, hr]⟩

theorem MEEG_load_info_cached (io : IOEnv) :
    ∀ (k : Nat) (m : MEEGLd), m._info = none →
      (MEEGLd._info ((fun m => (MEEG_load_info io m).2)^[k + 1] m)).isSome = true
      ∧ MEEGLd.reads ((fun m => (MEEG_load_info io m).2)^[k + 1] m) = m.reads + 1 := by
  intro k m hm
  refine cached_loader_spec _ MEEGLd.reads MEEGLd._info (fun a => 1) ?_ ?_ k m hm
  · intro a ha
    rw [MEEG_load_info, ha]
    exact ⟨rfl, rfl⟩
  · intro a ha
    match hr : a._info with
    | none => rw [hr] at ha; simp at ha
    | some r =>
      refine ⟨?_, ?_⟩
      · rw [MEEG_load_info, hr]
        exact ha
      · rw [MEEG_load_info, hr]

theorem MEEG_load_raw_cached (io : IOEnv) :
    ∀ (k : Nat) (m : MEEGLd), m._raw = none →
      (MEEGLd._raw ((fun m => (MEEG_load_raw io m).2)^[k + 1] m)).isSome = true
      ∧ MEEGLd.reads ((fun m => (MEEG_load_raw io m).2)^[k + 1] m) = m.reads + 1 := by
  intro k m hm
  refine cached_loader_spec _ MEEGLd.reads MEEGLd._raw (fun a => 1) ?_ ?_ k m hm
  · intro a ha
    rw [MEEG_load_raw, ha]
    exact ⟨rfl, rfl⟩
  · intro a ha
    match hr : a._raw with
    | none => rw [hr] at ha; simp at ha
    | some r =>
      refine ⟨?_, ?_⟩
      · rw [MEEG_load_raw, hr]
        rfl
      · rw [MEEG_load_raw, hr]

theorem MEEG_load_erm_filtered_cached (io : IOEnv) :
    ∀ (k : Nat) (m : MEEGLd), m._erm_filtered = none →
      (MEEGLd._erm_filtered ((fun m => (MEEG_load_erm_filtered io m).2)^[k + 1] m)).isSome = true
      ∧ MEEGLd.reads ((fun m => (MEEG_load_erm_filtered io m).2)^[k + 1] m) = m.reads + 1 := by
  intro k m hm
  refine cached_loader_spec _ MEEGLd.reads MEEGLd._erm_filtered (fun a => 1) ?_ ?_ k m hm
  · intro a ha
    rw [MEEG_load_erm_filtered, ha]
    exact ⟨rfl, rfl⟩
  · intro a ha
    match hr : a._erm_filtered with
    | none => rw [hr] at ha; simp at ha
    | some r =>
      refine ⟨?_, ?_⟩
      · rw [MEEG_load_erm_filtered, hr]
        exact ha
      · rw [MEEG_load_erm_filtered, hr]

theorem MEEG_load_events_cached (io : IOEnv) :
    ∀ (k : Nat) (m : MEEGLd), m._events = none →
      (MEEGLd._events ((fun m => (MEEG_load_events io m).2)^[k + 1] m)).isSome = true
      ∧ MEEGLd.reads ((fun m => (MEEG_load_events io m).2)^[k + 1] m) = m.reads + 1 := by
  intro k m hm
  refine cached_loader_spec _ MEEGLd.reads MEEGLd._events (fun a => 1) ?_ ?_ k m hm
  · intro a ha
    rw [MEEG_load_events, ha]
    exact ⟨rfl, rfl⟩
  · intro a ha
    match hr : a._events with
    | none => rw [hr] at ha; simp at ha
    | some r =>
      refine ⟨?_, ?_⟩
      · rw [MEEG_load_events, hr]
        exact ha
      · rw [MEEG_load_events, hr]

theorem MEEG_load_epochs_cached (io : IOEnv) :
    ∀ (k : Nat) (m : MEEGLd), m._epochs = none →
      (MEEGLd._epochs ((fun m => (MEEG_load_epochs io m).2)^[k + 1] m)).isSome = true
      ∧ MEEGLd.reads ((fun m => (MEEG_load_epochs io m).2)^[k + 1] m) = m.reads + 1 := by
  intro k m hm
  refine cached_loader_spec _ MEEGLd.reads MEEGLd._epochs (fun a => 1) ?_ ?_ k m hm
  · intro a ha
    rw [MEEG_load_epochs, ha]
    exact ⟨rfl, rfl⟩
  · intro a ha
    match hr : a._epochs with
    | none => rw [hr] at ha; simp at ha
    | some r =>
      refine ⟨?_, ?_⟩
      · rw [MEEG_load_epochs, hr]
        rfl
      · rw [MEEG_load_epochs, hr]

theorem MEEG_load_reject_log_cached (io : IOEnv) :
    ∀ (k : Nat) (m : MEEGLd), m._reject_log = none →
      (MEEGLd._reject_log ((fun m => (MEEG_load_reject_log io m).2)^[k + 1] m)).isSome = true
      ∧ MEEGLd.reads ((fun m => (MEEG_load_reject_log io m).2)^[k + 1] m) = m.reads + 1 := by
  intro k m hm
  refine cached_loader_spec _ MEEGLd.reads MEEGLd._reject_log (fun a => 1) ?_ ?_ k m hm
  · intro a ha
    rw [MEEG_load_reject_log, ha]
    exact ⟨rfl, rfl⟩
  · intro a ha
    match hr : a._reject_log with
    | none => rw [hr] at ha; simp at ha
    | some r =>
      refine ⟨?_, ?_⟩
      · rw [MEEG_load_reject_log, hr]
        exact ha
      · rw [MEEG_load_reject_log, hr]

theorem MEEG_load_ica_cached (io : IOEnv) :
    ∀ (k : Nat) (m : MEEGLd), m._ica = none →
      (MEEGLd._ica ((fun m => (MEEG_load_ica io m).2)^[k + 1] m)).isSome = true
      ∧ MEEGLd.reads ((fun m => (MEEG_load_ica io m).2)^[k + 1] m) = m.reads + 1 := by
  intro k m hm
  refine cached_loader_spec _ MEEGLd.reads MEEGLd._ica (fun a => 1) ?_ ?_ k m hm
  · intro a ha
    rw [MEEG_load_ica, ha]
    exact ⟨rfl, rfl⟩
  · intro a ha
    match hr : a._ica with
    | none => rw [hr] at ha; simp at ha
    | some r =>
      refine ⟨?_, ?_⟩
      · rw [MEEG_load_ica, hr]
        exact ha
      · rw [MEEG_load_ica, hr]

theorem MEEG_load_ica_epochs_cached (io : IOEnv) :
    ∀ (k : Nat) (m : MEEGLd), m._ica_epochs = none →
      (MEEGLd._ica_epochs ((fun m => (MEEG_load_ica_epochs io m).2)^[k + 1] m)).isSome = true
      ∧ MEEGLd.reads ((fun m => (MEEG_load_ica_epochs io m).2)^[k + 1] m) = m.reads + 1 := by
  intro k m hm
  refine cached_loader_spec _ MEEGLd.reads MEEGLd._ica_epochs (fun a => 1) ?_ ?_ k m hm
  · intro a ha
    rw [MEEG_load_ica_epochs, ha]
    exact ⟨rfl, rfl⟩
  · intro a ha
    match hr : a._ica_epochs with
    | none => rw [hr] at ha; simp at ha
    | some r =>
      refine ⟨?_, ?_⟩
      · rw [MEEG_load_ica_epochs, hr]
        exact ha
      · rw [MEEG_load_ica_epochs, hr]

theorem MEEG_load_evokeds_cached (io : IOEnv) :
    ∀ (k : Nat) (m : MEEGLd), m._evokeds = none →
      (MEEGLd._evokeds ((fun m => (MEEG_load_evokeds io m).2)^[k + 1] m)).isSome = true
      ∧ MEEGLd.reads ((fun m => (MEEG_load_evokeds io m).2)^[k + 1] m) = m.reads + 1 := by
  intro k m hm
  refine cached_loader_spec _ MEEGLd.reads MEEGLd._evokeds (fun a => 1) ?_ ?_ k m hm
  · intro a ha
    rw [MEEG_load_evokeds, ha]
    exact ⟨rfl, rfl⟩
  · intro a ha
    match hr : a._evokeds with
    | none => rw [hr] at ha; simp at ha
    | some r =>
      refine ⟨?_, ?_⟩
      · rw [MEEG_load_evokeds, hr]
        rfl
      · rw [MEEG_load_evokeds, hr]

theorem MEEG_load_power_tfr_cached (io : IOEnv) :
    ∀ (k : Nat) (m : MEEGLd), m._power_tfr = none →
      (MEEGLd._power_tfr ((fun m => (MEEG_load_power_tfr io m).2)^[k + 1] m)).isSome = true
      ∧ MEEGLd.reads ((fun m => (MEEG_load_power_tfr io m).2)^[k + 1] m) = m.reads + 1 := by
  intro k m hm
  refine cached_loader_spec _ MEEGLd.reads MEEGLd._power_tfr (fun a => 1) ?_ ?_ k m hm
  · intro a ha
    rw [MEEG_load_power_tfr, ha]
    exact ⟨rfl, rfl⟩
  · intro a ha
    match hr : a._power_tfr with
    | none => rw [hr] at ha; simp at ha
    | some r =>
      refine ⟨?_, ?_⟩
      · rw [MEEG_load_power_tfr, hr]
        exact ha
      · rw [MEEG_load_power_tfr, hr]

theorem MEEG_load_itc_tfr_cached (io : IOEnv) :
    ∀ (k : Nat) (m : MEEGLd), m._itc_tfr = none →
      (MEEGLd._itc_tfr ((fun m => (MEEG_load_itc_tfr io m).2)^[k + 1] m)).isSome = true
      ∧ MEEGLd.reads ((fun m => (MEEG_load_itc_tfr io m).2)^[k + 1] m) = m.reads + 1 := by
  intro k m hm
  refine cached_loader_spec _ MEEGLd.reads MEEGLd._itc_tfr (fun a => 1) ?_ ?_ k m hm
  · intro a ha
    rw [MEEG_load_itc_tfr, ha]
    exact ⟨rfl, rfl⟩
  · intro a ha
    match hr : a._itc_tfr with
    | none => rw [hr] at ha; simp at ha
    | some r =>
      refine ⟨?_, ?_⟩
      · rw [MEEG_load_itc_tfr, hr]
        exact ha
      · rw [MEEG_load_itc_tfr, hr]

theorem MEEG_load_transformation_cached (io : IOEnv) :
    ∀ (k : Nat) (m : MEEGLd), m._trans = none →
      (MEEGLd._trans ((fun m => (MEEG_load_transformation io m).2)^[k + 1] m)).isSome = true
      ∧ MEEGLd.reads ((fun m => (MEEG_load_transformation io m).2)^[k + 1] m) = m.reads + 1 := by
  intro k m hm
  refine cached_loader_spec _ MEEGLd.reads MEEGLd._trans (fun a => 1) ?_ ?_ k m hm
  · intro a ha
    rw [MEEG_load_transformation, ha]
    exact ⟨rfl, rfl⟩
  · intro a ha
    match hr : a._trans with
    | none => rw [hr] at ha; simp at ha
    | some r =>
      refine ⟨?_, ?_⟩
      · rw [MEEG_load_transformation, hr]
        exact ha
      · rw [MEEG_load_transformation, hr]

theorem MEEG_load_forward_cached (io : IOEnv) :
    ∀ (k : Nat) (m : MEEGLd), m._forward = none →
      (MEEGLd._forward ((fun m => (MEEG_load_forward io m).2)^[k + 1] m)).isSome = true
      ∧ MEEGLd.reads ((fun m => (MEEG_load_forward io m).2)^[k + 1] m) = m.reads + 1 := by
  intro k m hm
  refine cached_loader_spec _ MEEGLd.reads MEEGLd._forward (fun a => 1) ?_ ?_ k m hm
  · intro a ha
    rw [MEEG_load_forward, ha]
    exact ⟨rfl, rfl⟩
  · intro a ha
    match hr : a._forward with
    | none => rw [hr] at ha; simp at ha
    | some r =>
      refine ⟨?_, ?_⟩
      · rw [MEEG_load_forward, hr]
        exact ha
      · rw [MEEG_load_forward, hr]

theorem MEEG_load_noise_covariance_cached (io : IOEnv) :
    ∀ (k : Nat) (m : MEEGLd), m._noise_cov = none →
      (MEEGLd._noise_cov ((fun m => (MEEG_load_noise_covariance io m).2)^[k + 1] m)).isSome = true
      ∧ MEEGLd.reads ((fun m => (MEEG_load_noise_covariance io m).2)^[k + 1] m) = m.reads + 1 := by
  intro k m hm
  refine cached_loader_spec _ MEEGLd.reads MEEGLd._noise_cov (fun a => 1) ?_ ?_ k m hm
  · intro a ha
    rw [MEEG_load_noise_covariance, ha]
    exact ⟨rfl, rfl⟩
  · intro a ha
    match hr : a._noise_cov with
    | none => rw [hr] at ha; simp at ha
    | some r =>
      refine ⟨?_, ?_⟩
      · rw [MEEG_load_noise_covariance, hr]
        exact ha
      · rw [MEEG_load_noise_covariance, hr]

theorem MEEG_load_inverse_operator_cached (io : IOEnv) :
    ∀ (k : Nat) (m : MEEGLd), m._inverse = none →
      (MEEGLd._inverse ((fun m => (MEEG_load_inverse_operator io m).2)^[k + 1] m)).isSome = true
      ∧ MEEGLd.reads ((fun m => (MEEG_load_inverse_operator io m).2)^[k + 1] m) = m.reads + 1 := by
  intro k m hm
  refine cached_loader_spec _ MEEGLd.reads MEEGLd._inverse (fun a => 1) ?_ ?_ k m hm
  · intro a ha
    rw [MEEG_load_inverse_operator, ha]
    exact ⟨rfl, rfl⟩
  · intro a ha
    match hr : a._inverse with
    | none => rw [hr] at ha; simp at ha
    | some r =>
      refine ⟨?_, ?_⟩
      · rw [MEEG_load_inverse_operator, hr]
        exact ha
      · rw [MEEG_load_inverse_operator, hr]

theorem MEEG_load_source_estimates_cached (io : IOEnv) :
    ∀ (k : Nat) (m : MEEGLd), m._stcs = none →
      (MEEGLd._stcs ((fun m => (MEEG_load_source_estimates io m).2)^[k + 1] m)).isSome = true
      ∧ MEEGLd.reads ((fun m => (MEEG_load_source_estimates io m).2)^[k + 1] m) = m.reads + m.sel_trials.length := by
  intro k m hm
  refine cached_loader_spec _ MEEGLd.reads MEEGLd._stcs (fun a => a.sel_trials.length) ?_ ?_ k m hm
  · intro a ha
    rw [MEEG_load_source_estimates, ha]
    exact ⟨rfl, rfl⟩
  · intro a ha
    match hr : a._stcs with
    | none => rw [hr] at ha; simp at ha
    | some r =>
      refine ⟨?_, ?_⟩
      · rw [MEEG_load_source_estimates, hr]
        exact ha
      · rw [MEEG_load_source_estimates, hr]

theorem MEEG_load_mixn_dipoles_cached (io : IOEnv) :
    ∀ (k : Nat) (m : MEEGLd), m._mixn_dips = none →
      (MEEGLd._mixn_dips ((fun m => (MEEG_load_mixn_dipoles io m).2)^[k + 1] m)).isSome = true
      ∧ MEEGLd.reads ((fun m => (MEEG_load_mixn_dipoles io m).2)^[k + 1] m) = m.reads + (mixnDipPaths m).length := by
  intro k m hm
  refine cached_loader_spec _ MEEGLd.reads MEEGLd._mixn_dips (fun a => (mixnDipPaths a).length) ?_ ?_ k m hm
  · intro a ha
    rw [MEEG_load_mixn_dipoles, ha]
    exact ⟨rfl, rfl⟩
  · intro a ha
    match hr : a._mixn_dips with
    | none => rw [hr] at ha; simp at ha
    | some r =>
      refine ⟨?_, ?_⟩
      · rw [MEEG_load_mixn_dipoles, hr]
        exact ha
      · rw [MEEG_load_mixn_dipoles, hr]

theorem MEEG_load_mixn_source_estimates_cached (io : IOEnv) :
    ∀ (k : Nat) (m : MEEGLd), m._mixn_stcs = none →
      (MEEGLd._mixn_stcs ((fun m => (MEEG_load_mixn_source_estimates io m).2)^[k + 1] m)).isSome = true
      ∧ MEEGLd.reads ((fun m => (MEEG_load_mixn_source_estimates io m).2)^[k + 1] m) = m.reads + m.sel_trials.length := by
  intro k m hm
  refine cached_loader_spec _ MEEGLd.reads MEEGLd._mixn_stcs (fun a => a.sel_trials.length) ?_ ?_ k m hm
  · intro a ha
    rw [MEEG_load_mixn_source_estimates, ha]
    exact ⟨rfl, rfl⟩
  · intro a ha
    match hr : a._mixn_stcs with
    | none => rw [hr] at ha; simp at ha
    | some r =>
      refine ⟨?_, ?_⟩
      · rw [MEEG_load_mixn_source_estimates, hr]
        exact ha
      · rw [MEEG_load_mixn_source_estimates, hr]

theorem MEEG_load_ecd_cached (io : IOEnv) :
    ∀ (k : Nat) (m : MEEGLd), m._ecd_dips = none →
      (MEEGLd._ecd_dips ((fun m => (MEEG_load_ecd io m).2)^[k + 1] m)).isSome = true
      ∧ MEEGLd.reads ((fun m => (MEEG_load_ecd io m).2)^[k + 1] m) = m.reads + (ecdPaths m).length := by
  intro k m hm
  refine cached_loader_spec _ MEEGLd.reads MEEGLd._ecd_dips (fun a => (ecdPaths a).length) ?_ ?_ k m hm
  · intro a ha
    rw [MEEG_load_ecd, ha]
    exact ⟨rfl, rfl⟩
  · intro a ha
    match hr : a._ecd_dips with
    | none => rw [hr] at ha; simp at ha
    | some r =>
      refine ⟨?_, ?_⟩
      · rw [MEEG_load_ecd, hr]
        exact ha
      · rw [MEEG_load_ecd, hr]

theorem MEEG_load_ltc_cached (io : IOEnv) :
    ∀ (k : Nat) (m : MEEGLd), m._ltc = none →
      (MEEGLd._ltc ((fun m => (MEEG_load_ltc io m).2)^[k + 1] m)).isSome = true
      ∧ MEEGLd.reads ((fun m => (MEEG_load_ltc io m).2)^[k + 1] m) = m.reads + (ltcPaths m).length := by
  intro k m hm
  refine cached_loader_spec _ MEEGLd.reads MEEGLd._ltc (fun a => (ltcPaths a).length) ?_ ?_ k m hm
  · intro a ha
    rw [MEEG_load_ltc, ha]
    exact ⟨rfl, rfl⟩
  · intro a ha
    match hr : a._ltc with
    | none => rw [hr] at ha; simp at ha
    | some r =>
      refine ⟨?_, ?_⟩
      · rw [MEEG_load_ltc, hr]
        exact ha
      · rw [MEEG_load_ltc, hr]

theorem MEEG_load_connectivity_cached (io : IOEnv) :
    ∀ (k : Nat) (m : MEEGLd), m._connectivity = none →
      (MEEGLd._connectivity ((fun m => (MEEG_load_connectivity io m).2)^[k + 1] m)).isSome = true
      ∧ MEEGLd.reads ((fun m => (MEEG_load_connectivity io m).2)^[k + 1] m) = m.reads + (conPaths m).length := by
  intro k m hm
  refine cached_loader_spec _ MEEGLd.reads MEEGLd._connectivity (fun a => (conPaths a).length) ?_ ?_ k m hm
  · intro a ha
    rw [MEEG_load_connectivity, ha]
    exact ⟨rfl, rfl⟩
  · intro a ha
    match hr : a._connectivity with
    | none => rw [hr] at ha; simp at ha
    | some r =>
      refine ⟨?_, ?_⟩
      · rw [MEEG_load_connectivity, hr]
        exact ha
      · rw [MEEG_load_connectivity, hr]

theorem FSMRI_load_source_space_cached (io : IOEnv) :
    ∀ (k : Nat) (m : FSMRILd), m._source_space = none →
      (FSMRILd._source_space ((fun m => (FSMRI_load_source_space io m).2)^[k + 1] m)).isSome = true
      ∧ FSMRILd.reads ((fun m => (FSMRI_load_source_space io m).2)^[k + 1] m) = m.reads + 1 := by
  intro k m hm
  refine cached_loader_spec _ FSMRILd.reads FSMRILd._source_space (fun a => 1) ?_ ?_ k m hm
  · intro a ha
    rw [FSMRI_load_source_space, ha]
    exact ⟨rfl, rfl⟩
  · intro a ha
    match hr : a._source_space with
    | none => rw [hr] at ha; simp at ha
    | some r =>
      refine ⟨?_, ?_⟩
      · rw [FSMRI_load_source_space, hr]
        exact ha
      · rw [FSMRI_load_source_space, hr]

theorem FSMRI_load_bem_model_cached (io : IOEnv) :
    ∀ (k : Nat) (m : FSMRILd), m._bem_model = none →
      (FSMRILd._bem_model ((fun m => (FSMRI_load_bem_model io m).2)^[k + 1] m)).isSome = true
      ∧ FSMRILd.reads ((fun m => (FSMRI_load_bem_model io m).2)^[k + 1] m) = m.reads + 1 := by
  intro k m hm
  refine cached_loader_spec _ FSMRILd.reads FSMRILd._bem_model (fun a => 1) ?_ ?_ k m hm
  · intro a ha
    rw [FSMRI_load_bem_model, ha]
    exact ⟨rfl, rfl⟩
  · intro a ha
    match hr : a._bem_model with
    | none => rw [hr] at ha; simp at ha
    | some r =>
      refine ⟨?_, ?_⟩
      · rw [FSMRI_load_bem_model, hr]
        exact ha
      · rw [FSMRI_load_bem_model, hr]

theorem FSMRI_load_bem_solution_cached (io : IOEnv) :
    ∀ (k : Nat) (m : FSMRILd), m._bem_solution = none →
      (FSMRILd._bem_solution ((fun m => (FSMRI_load_bem_solution io m).2)^[k + 1] m)).isSome = true
      ∧ FSMRILd.reads ((fun m => (FSMRI_load_bem_solution io m).2)^[k + 1] m) = m.reads + 1 := by
  intro k m hm
  refine cached_loader_spec _ FSMRILd.reads FSMRILd._bem_solution (fun a => 1) ?_ ?_ k m hm
  · intro a ha
    rw [FSMRI_load_bem_solution, ha]
    exact ⟨rfl, rfl⟩
  · intro a ha
    match hr : a._bem_solution with
    | none => rw [hr] at ha; simp at ha
    | some r =>
      refine ⟨?_, ?_⟩
      · rw [FSMRI_load_bem_solution, hr]
        exact ha
      · rw [FSMRI_load_bem_solution, hr]

theorem FSMRI_load_vol_source_space_cached (io : IOEnv) :
    ∀ (k : Nat) (m : FSMRILd), m._vol_source_space = none →
      (FSMRILd._vol_source_space ((fun m => (FSMRI_load_vol_source_space io m).2)^[k + 1] m)).isSome = true
      ∧ FSMRILd.reads ((fun m => (FSMRI_load_vol_source_space io m).2)^[k + 1] m) = m.reads + 1 := by
  intro k m hm
  refine cached_loader_spec _ FSMRILd.reads FSMRILd._vol_source_space (fun a => 1) ?_ ?_ k m hm
  · intro a ha
    rw [FSMRI_load_vol_source_space, ha]
    exact ⟨rfl, rfl⟩
  · intro a ha
    match hr : a._vol_source_space with
    | none => rw [hr] at ha; simp at ha
    | some r =>
      refine ⟨?_, ?_⟩
      · rw [FSMRI_load_vol_source_space, hr]
        exact ha
      · rw [FSMRI_load_vol_source_space, hr]

theorem FSMRI_load_parc_labels_cached (io : IOEnv) :
    ∀ (k : Nat) (m : FSMRILd), m._labels = none →
      (FSMRILd._labels ((fun m => (FSMRI_load_parc_labels io m).2)^[k + 1] m)).isSome = true
      ∧ FSMRILd.reads ((fun m => (FSMRI_load_parc_labels io m).2)^[k + 1] m) = m.reads + 1 := by
  intro k m hm
  refine cached_loader_spec _ FSMRILd.reads FSMRILd._labels (fun a => 1) ?_ ?_ k m hm
  · intro a ha
    rw [FSMRI_load_parc_labels, ha]
    exact ⟨rfl, rfl⟩
  · intro a ha
    match hr : a._labels with
    | none => rw [hr] at ha; simp at ha
    | some r =>
      refine ⟨?_, ?_⟩
      · rw [FSMRI_load_parc_labels, hr]
        exact ha
      · rw [FSMRI_load_parc_labels, hr]

theorem Group_load_ga_evokeds_cached (io : IOEnv) :
    ∀ (k : Nat) (m : GroupLd), m._ga_evokeds = none →
      (GroupLd._ga_evokeds ((fun m => (Group_load_ga_evokeds io m).2)^[k + 1] m)).isSome = true
      ∧ GroupLd.reads ((fun m => (Group_load_ga_evokeds io m).2)^[k + 1] m) = m.reads + 1 := by
  intro k m hm
  refine cached_loader_spec _ GroupLd.reads GroupLd._ga_evokeds (fun a => 1) ?_ ?_ k m hm
  · intro a ha
    rw [Group_load_ga_evokeds, ha]
    exact ⟨rfl, rfl⟩
  · intro a ha
    match hr : a._ga_evokeds with
    | none => rw [hr] at ha; simp at ha
    | some r =>
      refine ⟨?_, ?_⟩
      · rw [Group_load_ga_evokeds, hr]
        exact ha
      · rw [Group_load_ga_evokeds, hr]

theorem Group_load_ga_tfr_cached (io : IOEnv) :
    ∀ (k : Nat) (m : GroupLd), m._ga_tfr = none →
      (GroupLd._ga_tfr ((fun m => (Group_load_ga_tfr io m).2)^[k + 1] m)).isSome = true
      ∧ GroupLd.reads ((fun m => (Group_load_ga_tfr io m).2)^[k + 1] m) = m.reads + m.sel_trials.length := by
  intro k m hm
  refine cached_loader_spec _ GroupLd.reads GroupLd._ga_tfr (fun a => a.sel_trials.length) ?_ ?_ k m hm
  · intro a ha
    rw [Group_load_ga_tfr, ha]
    exact ⟨rfl, rfl⟩
  · intro a ha
    match hr : a._ga_tfr with
    | none => rw [hr] at ha; simp at ha
    | some r =>
      refine ⟨?_, ?_⟩
      · rw [Group_load_ga_tfr, hr]
        exact ha
      · rw [Group_load_ga_tfr, hr]

theorem Group_load_ga_source_estimate_cached (io : IOEnv) :
    ∀ (k : Nat) (m : GroupLd), m._ga_stcs = none →
      (GroupLd._ga_stcs ((fun m => (Group_load_ga_source_estimate io m).2)^[k + 1] m)).isSome = true
      ∧ GroupLd.reads ((fun m => (Group_load_ga_source_estimate io m).2)^[k + 1] m) = m.reads + m.sel_trials.length := by
  intro k m hm
  refine cached_loader_spec _ GroupLd.reads GroupLd._ga_stcs (fun a => a.sel_trials.length) ?_ ?_ k m hm
  · intro a ha
    rw [Group_load_ga_source_estimate, ha]
    exact ⟨rfl, rfl⟩
  · intro a ha
    match hr : a._ga_stcs with
    | none => rw [hr] at ha; simp at ha
    | some r =>
      refine ⟨?_, ?_⟩
      · rw [Group_load_ga_source_estimate, hr]
        exact ha
      · rw [Group_load_ga_source_estimate, hr]

theorem Group_load_ga_ltc_cached (io : IOEnv) :
    ∀ (k : Nat) (m : GroupLd), m._ga_ltc = none →
      (GroupLd._ga_ltc ((fun m => (Group_load_ga_ltc io m).2)^[k + 1] m)).isSome = true
      ∧ GroupLd.reads ((fun m => (Group_load_ga_ltc io m).2)^[k + 1] m) = m.reads + (gaLtcPaths m).length := by
  intro k m hm
  refine cached_loader_spec _ GroupLd.reads GroupLd._ga_ltc (fun a => (gaLtcPaths a).length) ?_ ?_ k m hm
  · intro a ha
    rw [Group_load_ga_ltc, ha]
    exact ⟨rfl, rfl⟩
  · intro a ha
    match hr : a._ga_ltc with
    | none => rw [hr] at ha; simp at ha
    | some r =>
      refine ⟨?_, ?_⟩
      · rw [Group_load_ga_ltc, hr]
        exact ha
      · rw [Group_load_ga_ltc, hr]

theorem Group_load_ga_connect_cached (io : IOEnv) :
    ∀ (k : Nat) (m : GroupLd), m._ga_connect = none →
      (GroupLd._ga_connect ((fun m => (Group_load_ga_connect io m).2)^[k + 1] m)).isSome = true
      ∧ GroupLd.reads ((fun m => (Group_load_ga_connect io m).2)^[k + 1] m) = m.reads + (gaConPaths m).length := by
  intro k m hm
  refine cached_loader_spec _ GroupLd.reads GroupLd._ga_connect (fun a => (gaConPaths a).length) ?_ ?_ k m hm
  · intro a ha
    rw [Group_load_ga_connect, ha]
    exact ⟨rfl, rfl⟩
  · intro a ha
    match hr : a._ga_connect with
    | none => rw [hr] at ha; simp at ha
    | some r =>
      refine ⟨?_, ?_⟩
      · rw [Group_load_ga_connect, hr]
        exact ha
      · rw [Group_load_ga_connect, hr]

theorem FSMRI_load_source_morph_cached (io : IOEnv) :
    ∀ (k : Nat) (s : FSMRILd), s._source_morph = none →
      (FSMRILd._source_morph ((fun s => (FSMRI_load_source_morph io s).2)^[k + 1] s)).isSome
        = true
      ∧ FSMRILd.reads ((fun s => (FSMRI_load_source_morph io s).2)^[k + 1] s)
          = s.reads + (if io.morph_new_fails then 2 else 1) := by
  intro k s hs
  refine cached_loader_spec _ FSMRILd.reads FSMRILd._source_morph
    (fun _ => if io.morph_new_fails then 2 else 1) ?_ ?_ k s hs
  · intro a ha
    rw [FSMRI_load_source_morph, ha]
    cases hf : io.morph_new_fails <;> exact ⟨rfl, rfl⟩
  · intro a ha
    match hr : a._source_morph with
    | none => rw [hr] at ha; simp at ha
    | some r =>
      refine ⟨?_, ?_⟩
      · rw [FSMRI_load_source_morph, hr]
        exact ha
      · rw [FSMRI_load_source_morph, hr]

theorem MEEG_load_filtered_cached (io : IOEnv) :
    ∀ (k : Nat) (m : MEEGLd), m._raw_filtered = none →
      (MEEGLd._raw_filtered ((fun m => (MEEG_load_filtered io m).2)^[k + 1] m)).isSome = true
      ∧ MEEGLd.reads ((fun m => (MEEG_load_filtered io m).2)^[k + 1] m) = m.reads + 1 := by
  intro k m hm
  refine cached_loader_spec _ MEEGLd.reads MEEGLd._raw_filtered (fun _ => 1) ?_ ?_ k m hm
  · intro a ha
    match hw : a._raw with
    | none =>
      simp only [MEEG_load_filtered, ha, hw]
      exact ⟨rfl, trivial⟩
    | some r =>
      simp only [MEEG_load_filtered, ha, hw]
      exact ⟨rfl, trivial⟩
  · intro a ha
    match hr : a._raw_filtered with
    | none => rw [hr] at ha; simp at ha
    | some r =>
      match hw : a._raw with
      | none =>
        simp only [MEEG_load_filtered, hr, hw]
        exact ⟨rfl, trivial⟩
      | some r2 =>
        simp only [MEEG_load_filtered, hr, hw]
        exact ⟨rfl, trivial⟩

/-- The per-call read-count of the uncached `MEEG.load_erm` (lines 340-344):
`k` calls perform `k` reads of the empty-room file. -/
theorem MEEG_load_erm_reads (io : IOEnv) :
    ∀ (k : Nat) (m : MEEGLd),
      MEEGLd.reads ((fun m => (MEEG_load_erm io m).2)^[k] m) = m.reads + k := by
  intro k
  induction k with
  | zero => intro m; rfl
  | succ k ih =>
    intro m
    rw [Function.iterate_succ_apply, ih]
    have hstep : (MEEG_load_erm io m).2.reads = m.reads + 1 := rfl
    rw [hstep]
    omega

/-- `MEEG.load_morphed_source_estimates` on a fresh object (attribute
`_morphed_stcs` never created by `load_attributes`): the call raises
`AttributeError` with the object unchanged and no file read. -/
theorem MEEG_load_morphed_fresh_raises (io : IOEnv) :
    ∀ m : MEEGLd, m._morphed_stcs = none →
      MEEG_load_morphed_source_estimates io m
        = (Except.error "AttributeError: MEEG object has no attribute _morphed_stcs", m) := by
  intro m hm
  rw [MEEG_load_morphed_source_estimates, hm]

/-- `MEEG.load_morphed_source_estimates` has no `return` statement: whenever
it does not raise, it returns `None`, never the source estimates. -/
theorem MEEG_load_morphed_no_return (io : IOEnv) :
    ∀ (m : MEEGLd) (c : Option Nat), m._morphed_stcs = some c →
      (MEEG_load_morphed_source_estimates io m).1 = Except.ok none := by
  intro m c hm
  rw [MEEG_load_morphed_source_estimates, hm]
  cases c <;> rfl

/-- A concrete external environment (all payloads 0, all files present). -/
def io0 : IOEnv :=
  { read_raw_fif := fun _ => 0, read_info := fun _ => 0, read_events := fun _ => 0,
    read_epochs := fun _ => 0, pickle_load := fun _ => 0, read_ica := fun _ => 0,
    read_evokeds := fun _ => 0, read_tfrs := fun _ => 0, read_trans := fun _ => 0,
    read_forward_solution := fun _ => 0, read_cov := fun _ => 0,
    read_inverse_operator := fun _ => 0, read_source_estimate := fun _ => 0,
    read_dipole := fun _ => 0, np_load := fun _ => 0, read_source_spaces := fun _ => 0,
    read_bem_surfaces := fun _ => 0, read_bem_solution := fun _ => 0,
    read_source_morph := fun _ => 0, read_labels_from_annot := fun _ _ _ => 0,
    pick := id, updateInfo := id, combine := fun _ => 0,
    path_exists := fun _ => true, morph_new_fails := false }

/-- A fresh `MEEG` object right after `__init__`: every cache attribute set
to `None` by `load_attributes`, `_morphed_stcs` absent, no reads yet. -/
def mEmpty : MEEGLd :=
  { name := "obj", p_preset := "Default", save_dir := "d",
    raw_path := "r", raw_filtered_path := "rf", erm_path := "e",
    erm_filtered_path := "ef", events_path := "ev", epochs_path := "ep",
    reject_log_path := "rl", ica_path := "i", ica_epochs_path := "ie",
    evokeds_path := "ek", power_tfr_path := "pt", itc_tfr_path := "it",
    trans_path := "t", forward_path := "f", calm_cov_path := "cc",
    erm_cov_path := "ec", cov_path := "c", inverse_path := "inv",
    sel_trials := ["1"], erm := "None", calm_noise_cov := false,
    erm_noise_cov := false, target_labels := ["lab"], con_methods := ["coh"],
    ecd_times := ["t1"], mixn_dip_count := 1,
    _info := none, _raw := none, _raw_filtered := none, _erm_filtered := none,
    _events := none, _epochs := none, _reject_log := none, _ica := none,
    _ica_epochs := none, _evokeds := none, _power_tfr := none, _itc_tfr := none,
    _trans := none, _forward := none, _noise_cov := none, _inverse := none,
    _stcs := none, _morphed_stcs := none, _mixn_stcs := none, _mixn_dips := none,
    _ecd_dips := none, _ltc := none, _connectivity := none, reads := 0 }

/-- C8 counterexample: two consecutive `load_erm` calls on the same fresh
`MEEG` object read the empty-room file twice — `load_erm` has no cache
attribute, refuting "every `load_*` method reads its file at most once". -/
theorem C8_counterexample_load_erm_rereads :
    (MEEG_load_erm io0 (MEEG_load_erm io0 mEmpty).2).2.reads = 2 := rfl

/-- C8 amended: every data-loading `load_*` method of `MEEG`, `FSMRI` and
`Group` is lazily cached — starting from an empty cache, the first call
reads the file(s) into the in-memory attribute and any number of further
calls performs no additional read — with two exceptions: `MEEG.load_erm`
reads the empty-room file anew on every call (`k` calls, `k` reads), and
`MEEG.load_morphed_source_estimates` is broken as a loader: its cache
attribute `_morphed_stcs` is never created by `load_attributes`, so on a
fresh object the first call raises `AttributeError` before any file is
read, and the method has no `return` statement, so even with the attribute
present it returns `None`.  (`MEEG.load_filtered` caches its read but then
dereferences `self._raw`, raising `AttributeError` when no raw object is
in memory; its caching conjunct below covers the read behaviour.) -/
theorem C8_amended_lazy_caching (io : IOEnv) :
    (∀ (k : Nat) (m : MEEGLd), m._raw = none →
      (MEEGLd._raw ((fun m => (MEEG_load_raw io m).2)^[k + 1] m)).isSome = true
      ∧ MEEGLd.reads ((fun m => (MEEG_load_raw io m).2)^[k + 1] m) = m.reads + 1)
    ∧ (∀ (k : Nat) (m : MEEGLd),
      MEEGLd.reads ((fun m => (MEEG_load_erm io m).2)^[k] m) = m.reads + k)
    ∧ (∀ m : MEEGLd, m._morphed_stcs = none →
      MEEG_load_morphed_source_estimates io m
        = (Except.error "AttributeError: MEEG object has no attribute _morphed_stcs", m))
    ∧ (∀ (m : MEEGLd) (c : Option Nat), m._morphed_stcs = some c →
      (MEEG_load_morphed_source_estimates io m).1 = Except.ok none)
    ∧ (∀ (k : Nat) (m : MEEGLd), m._info = none →
      (MEEGLd._info ((fun m => (MEEG_load_info io m).2)^[k + 1] m)).isSome = true
      ∧ MEEGLd.reads ((fun m => (MEEG_load_info io m).2)^[k + 1] m) = m.reads + 1)
    ∧ (∀ (k : Nat) (m : MEEGLd), m._raw_filtered = none →
      (MEEGLd._raw_filtered ((fun m => (MEEG_load_filtered io m).2)^[k + 1] m)).isSome = true
      ∧ MEEGLd.reads ((fun m => (MEEG_load_filtered io m).2)^[k + 1] m) = m.reads + 1)
    ∧ (∀ (k : Nat) (m : MEEGLd), m._erm_filtered = none →
      (MEEGLd._erm_filtered ((fun m => (MEEG_load_erm_filtered io m).2)^[k + 1] m)).isSome = true
      ∧ MEEGLd.reads ((fun m => (MEEG_load_erm_filtered io m).2)^[k + 1] m) = m.reads + 1)
    ∧ (∀ (k : Nat) (m : MEEGLd), m._events = none →
      (MEEGLd._events ((fun m => (MEEG_load_events io m).2)^[k + 1] m)).isSome = true
      ∧ MEEGLd.reads ((fun m => (MEEG_load_events io m).2)^[k + 1] m) = m.reads + 1)
    ∧ (∀ (k : Nat) (m : MEEGLd), m._epochs = none →
      (MEEGLd._epochs ((fun m => (MEEG_load_epochs io m).2)^[k + 1] m)).isSome = true
      ∧ MEEGLd.reads ((fun m => (MEEG_load_epochs io m).2)^[k + 1] m) = m.reads + 1)
    ∧ (∀ (k : Nat) (m : MEEGLd), m._reject_log = none →
      (MEEGLd._reject_log ((fun m => (MEEG_load_reject_log io m).2)^[k + 1] m)).isSome = true
      ∧ MEEGLd.reads ((fun m => (MEEG_load_reject_log io m).2)^[k + 1] m) = m.reads + 1)
    ∧ (∀ (k : Nat) (m : MEEGLd), m._ica = none →
      (MEEGLd._ica ((fun m => (MEEG_load_ica io m).2)^[k + 1] m)).isSome = true
      ∧ MEEGLd.reads ((fun m => (MEEG_load_ica io m).2)^[k + 1] m) = m.reads + 1)
    ∧ (∀ (k : Nat) (m : MEEGLd), m._ica_epochs = none →
      (MEEGLd._ica_epochs ((fun m => (MEEG_load_ica_epochs io m).2)^[k + 1] m)).isSome = true
      ∧ MEEGLd.reads ((fun m => (MEEG_load_ica_epochs io m).2)^[k + 1] m) = m.reads + 1)
    ∧ (∀ (k : Nat) (m : MEEGLd), m._evokeds = none →
      (MEEGLd._evokeds ((fun m => (MEEG_load_evokeds io m).2)^[k + 1] m)).isSome = true
      ∧ MEEGLd.reads ((fun m => (MEEG_load_evokeds io m).2)^[k + 1] m) = m.reads + 1)
    ∧ (∀ (k : Nat) (m : MEEGLd), m._power_tfr = none →
      (MEEGLd._power_tfr ((fun m => (MEEG_load_power_tfr io m).2)^[k + 1] m)).isSome = true
      ∧ MEEGLd.reads ((fun m => (MEEG_load_power_tfr io m).2)^[k + 1] m) = m.reads + 1)
    ∧ (∀ (k : Nat) (m : MEEGLd), m._itc_tfr = none →
      (MEEGLd._itc_tfr ((fun m => (MEEG_load_itc_tfr io m).2)^[k + 1] m)).isSome = true
      ∧ MEEGLd.reads ((fun m => (MEEG_load_itc_tfr io m).2)^[k + 1] m) = m.reads + 1)
    ∧ (∀ (k : Nat) (m : MEEGLd), m._trans = none →
      (MEEGLd._trans ((fun m => (MEEG_load_transformation io m).2)^[k + 1] m)).isSome = true
      ∧ MEEGLd.reads ((fun m => (MEEG_load_transformation io m).2)^[k + 1] m) = m.reads + 1)
    ∧ (∀ (k : Nat) (m : MEEGLd), m._forward = none →
      (MEEGLd._forward ((fun m => (MEEG_load_forward io m).2)^[k + 1] m)).isSome = true
      ∧ MEEGLd.reads ((fun m => (MEEG_load_forward io m).2)^[k + 1] m) = m.reads + 1)
    ∧ (∀ (k : Nat) (m : MEEGLd), m._noise_cov = none →
      (MEEGLd._noise_cov ((fun m => (MEEG_load_noise_covariance io m).2)^[k + 1] m)).isSome = true
      ∧ MEEGLd.reads ((fun m => (MEEG_load_noise_covariance io m).2)^[k + 1] m) = m.reads + 1)
    ∧ (∀ (k : Nat) (m : MEEGLd), m._inverse = none →
      (MEEGLd._inverse ((fun m => (MEEG_load_inverse_operator io m).2)^[k + 1] m)).isSome = true
      ∧ MEEGLd.reads ((fun m => (MEEG_load_inverse_operator io m).2)^[k + 1] m) = m.reads + 1)
    ∧ (∀ (k : Nat) (m : MEEGLd), m._stcs = none →
      (MEEGLd._stcs ((fun m => (MEEG_load_source_estimates io m).2)^[k + 1] m)).isSome = true
      ∧ MEEGLd.reads ((fun m => (MEEG_load_source_estimates io m).2)^[k + 1] m) = m.reads + m.sel_trials.length)
    ∧ (∀ (k : Nat) (m : MEEGLd), m._mixn_dips = none →
      (MEEGLd._mixn_dips ((fun m => (MEEG_load_mixn_dipoles io m).2)^[k + 1] m)).isSome = true
      ∧ MEEGLd.reads ((fun m => (MEEG_load_mixn_dipoles io m).2)^[k + 1] m) = m.reads + (mixnDipPaths m).length)
    ∧ (∀ (k : Nat) (m : MEEGLd), m._mixn_stcs = none →
      (MEEGLd._mixn_stcs ((fun m => (MEEG_load_mixn_source_estimates io m).2)^[k + 1] m)).isSome = true
      ∧ MEEGLd.reads ((fun m => (MEEG_load_mixn_source_estimates io m).2)^[k + 1] m) = m.reads + m.sel_trials.length)
    ∧ (∀ (k : Nat) (m : MEEGLd), m._ecd_dips = none →
      (MEEGLd._ecd_dips ((fun m => (MEEG_load_ecd io m).2)^[k + 1] m)).isSome = true
      ∧ MEEGLd.reads ((fun m => (MEEG_load_ecd io m).2)^[k + 1] m) = m.reads + (ecdPaths m).length)
    ∧ (∀ (k : Nat) (m : MEEGLd), m._ltc = none →
      (MEEGLd._ltc ((fun m => (MEEG_load_ltc io m).2)^[k + 1] m)).isSome = true
      ∧ MEEGLd.reads ((fun m => (MEEG_load_ltc io m).2)^[k + 1] m) = m.reads + (ltcPaths m).length)
    ∧ (∀ (k : Nat) (m : MEEGLd), m._connectivity = none →
      (MEEGLd._connectivity ((fun m => (MEEG_load_connectivity io m).2)^[k + 1] m)).isSome = true
      ∧ MEEGLd.reads ((fun m => (MEEG_load_connectivity io m).2)^[k + 1] m) = m.reads + (conPaths m).length)
    ∧ (∀ (k : Nat) (m : FSMRILd), m._source_space = none →
      (FSMRILd._source_space ((fun m => (FSMRI_load_source_space io m).2)^[k + 1] m)).isSome = true
      ∧ FSMRILd.reads ((fun m => (FSMRI_load_source_space io m).2)^[k + 1] m) = m.reads + 1)
    ∧ (∀ (k : Nat) (m : FSMRILd), m._bem_model = none →
      (FSMRILd._bem_model ((fun m => (FSMRI_load_bem_model io m).2)^[k + 1] m)).isSome = true
      ∧ FSMRILd.reads ((fun m => (FSMRI_load_bem_model io m).2)^[k + 1] m) = m.reads + 1)
    ∧ (∀ (k : Nat) (m : FSMRILd), m._bem_solution = none →
      (FSMRILd._bem_solution ((fun m => (FSMRI_load_bem_solution io m).2)^[k + 1] m)).isSome = true
      ∧ FSMRILd.reads ((fun m => (FSMRI_load_bem_solution io m).2)^[k + 1] m) = m.reads + 1)
    ∧ (∀ (k : Nat) (m : FSMRILd), m._vol_source_space = none →
      (FSMRILd._vol_source_space ((fun m => (FSMRI_load_vol_source_space io m).2)^[k + 1] m)).isSome = true
      ∧ FSMRILd.reads ((fun m => (FSMRI_load_vol_source_space io m).2)^[k + 1] m) = m.reads + 1)
    ∧ (∀ (k : Nat) (s : FSMRILd), s._source_morph = none →
      (FSMRILd._source_morph ((fun s => (FSMRI_load_source_morph io s).2)^[k + 1] s)).isSome
        = true
      ∧ FSMRILd.reads ((fun s => (FSMRI_load_source_morph io s).2)^[k + 1] s)
          = s.reads + (if io.morph_new_fails then 2 else 1))
    ∧ (∀ (k : Nat) (m : FSMRILd), m._labels = none →
      (FSMRILd._labels ((fun m => (FSMRI_load_parc_labels io m).2)^[k + 1] m)).isSome = true
      ∧ FSMRILd.reads ((fun m => (FSMRI_load_parc_labels io m).2)^[k + 1] m) = m.reads + 1)
    ∧ (∀ (k : Nat) (m : GroupLd), m._ga_evokeds = none →
      (GroupLd._ga_evokeds ((fun m => (Group_load_ga_evokeds io m).2)^[k + 1] m)).isSome = true
      ∧ GroupLd.reads ((fun m => (Group_load_ga_evokeds io m).2)^[k + 1] m) = m.reads + 1)
    ∧ (∀ (k : Nat) (m : GroupLd), m._ga_tfr = none →
      (GroupLd._ga_tfr ((fun m => (Group_load_ga_tfr io m).2)^[k + 1] m)).isSome = true
      ∧ GroupLd.reads ((fun m => (Group_load_ga_tfr io m).2)^[k + 1] m) = m.reads + m.sel_trials.length)
    ∧ (∀ (k : Nat) (m : GroupLd), m._ga_stcs = none →
      (GroupLd._ga_stcs ((fun m => (Group_load_ga_source_estimate io m).2)^[k + 1] m)).isSome = true
      ∧ GroupLd.reads ((fun m => (Group_load_ga_source_estimate io m).2)^[k + 1] m) = m.reads + m.sel_trials.length)
    ∧ (∀ (k : Nat) (m : GroupLd), m._ga_ltc = none →
      (GroupLd._ga_ltc ((fun m => (Group_load_ga_ltc io m).2)^[k + 1] m)).isSome = true
      ∧ GroupLd.reads ((fun m => (Group_load_ga_ltc io m).2)^[k + 1] m) = m.reads + (gaLtcPaths m).length)
    ∧ (∀ (k : Nat) (m : GroupLd), m._ga_connect = none →
      (GroupLd._ga_connect ((fun m => (Group_load_ga_connect io m).2)^[k + 1] m)).isSome = true
      ∧ GroupLd.reads ((fun m => (Group_load_ga_connect io m).2)^[k + 1] m) = m.reads + (gaConPaths m).length) := by
  exact ⟨MEEG_load_raw_cached io, MEEG_load_erm_reads io,
    MEEG_load_morphed_fresh_raises io, MEEG_load_morphed_no_return io,
    MEEG_load_info_cached io, MEEG_load_filtered_cached io, MEEG_load_erm_filtered_cached io,
    MEEG_load_events_cached io, MEEG_load_epochs_cached io, MEEG_load_reject_log_cached io,
    MEEG_load_ica_cached io, MEEG_load_ica_epochs_cached io, MEEG_load_evokeds_cached io,
    MEEG_load_power_tfr_cached io, MEEG_load_itc_tfr_cached io,
    MEEG_load_transformation_cached io, MEEG_load_forward_cached io,
    MEEG_load_noise_covariance_cached io, MEEG_load_inverse_operator_cached io,
    MEEG_load_source_estimates_cached io, MEEG_load_mixn_dipoles_cached io,
    MEEG_load_mixn_source_estimates_cached io, MEEG_load_ecd_cached io,
    MEEG_load_ltc_cached io, MEEG_load_connectivity_cached io,
    FSMRI_load_source_space_cached io, FSMRI_load_bem_model_cached io,
    FSMRI_load_bem_solution_cached io, FSMRI_load_vol_source_space_cached io,
    FSMRI_load_source_morph_cached io, FSMRI_load_parc_labels_cached io,
    Group_load_ga_evokeds_cached io, Group_load_ga_tfr_cached io,
    Group_load_ga_source_estimate_cached io, Group_load_ga_ltc_cached io,
    Group_load_ga_connect_cached io⟩


/-- Witness for the amended C8 at a concrete environment and fresh object:
two `load_raw` calls read once and leave the cache set; two `load_erm`
calls read twice; `load_morphed_source_estimates` raises `AttributeError`
leaving the object untouched. -/
theorem C8_amended_witness :
    (MEEGLd._raw ((fun m => (MEEG_load_raw io0 m).2)^[2] mEmpty)).isSome = true
    ∧ MEEGLd.reads ((fun m => (MEEG_load_raw io0 m).2)^[2] mEmpty) = 1
    ∧ MEEGLd.reads ((fun m => (MEEG_load_erm io0 m).2)^[2] mEmpty) = 2
    ∧ MEEG_load_morphed_source_estimates io0 mEmpty
        = (Except.error "AttributeError: MEEG object has no attribute _morphed_stcs",
           mEmpty) := by
  have h := C8_amended_lazy_caching io0
  exact ⟨(h.1 1 mEmpty rfl).1, (h.1 1 mEmpty rfl).2, h.2.1 2 mEmpty,
    h.2.2.1 mEmpty rfl⟩
/-! ### `get_arguments` (function_utils.py lines 32-78, C10) -/

/-- A value bound to a parameter name: one of the object aliases, or a plain
value drawn from one of the four lookup sources (values abstracted as
`Nat`). -/
inductive ArgVal where
  | ctRef
  | prRef
  | objRef
  | value (v : Nat)
deriving Repr, DecidableEq

/-- The lookup sources of `get_arguments`: `vars(obj.pr)`,
`obj.pr.parameters[obj.pr.p_preset]`, `obj.ct.settings`, `QS().childKeys()`
(with `QS().value`), and `obj.pr.add_kwargs`. -/
structure ArgEnv where
  project_attributes : List (String × Nat)
  preset_params : List (String × Nat)
  settings : List (String × Nat)
  qsettings : List (String × Nat)
  add_kwargs : List (String × List (String × Nat))

/-- The body of the `for arg_name in arg_names` loop: the elif chain binding
one parameter name, in source order — object aliases first, then project
attributes, then the preset's parameters, then the controller settings, then
the QSettings keys; `none` means the chain falls through to the
`RuntimeError`. -/
def resolveArg (env : ArgEnv) (a : String) : Option ArgVal :=
  if a = "ct" then some ArgVal.ctRef
  else if a = "controller" then some ArgVal.ctRef
  else if a = "pr" then some ArgVal.prRef
  else if a = "project" then some ArgVal.prRef
  else if a = "meeg" then some ArgVal.objRef
  else if a = "fsmri" then some ArgVal.objRef
  else if a = "group" then some ArgVal.objRef
  else
    match dictGet a env.project_attributes with
    | some v => some (ArgVal.value v)
    | none =>
      match dictGet a env.preset_params with
      | some v => some (ArgVal.value v)
      | none =>
        match dictGet a env.settings with
        | some v => some (ArgVal.value v)
        | none =>
          match dictGet a env.qsettings with
          | some v => some (ArgVal.value v)
          | none => none

/-- The loop accumulating `keyword_arguments`, raising at the first
unresolvable name. -/
def get_arguments_loop (env : ArgEnv) :
    List String → List (String × ArgVal) → Except String (List (String × ArgVal))
  | [], acc => Except.ok acc
  | a :: rest, acc =>
    match resolveArg env a with
    | some v => get_arguments_loop env rest (dictInsert a v acc)
    | none => Except.error (a ++ " could not be found in Subject, Project or Parameters")

/-- `get_arguments`: drop `'args'`/`'kwargs'` from the signature's parameter
names, resolve each remaining name through the precedence chain, then apply
the user's `add_kwargs` for this function on top. -/
def get_arguments (func_name : String) (argNamesRaw : List String) (env : ArgEnv) :
    Except String (List (String × ArgVal)) :=
  let argNames := (argNamesRaw.erase "args").erase "kwargs"
  match get_arguments_loop env argNames [] with
  | Except.error e => Except.error e
  | Except.ok kw =>
    Except.ok
      (match dictGet func_name env.add_kwargs with
        | some kws => kws.foldl (fun d e => dictInsert e.1 (ArgVal.value e.2) d) kw
        | none => kw)

/-- The seven special parameter names bound to the objects themselves. -/
def aliasName (a : String) : Prop :=
  a ∈ (["ct", "controller", "pr", "project", "meeg", "fsmri", "group"] : List String)

/-- A name is resolvable iff it is an alias or appears in one of the four
lookup sources. -/
def foundSomewhere (env : ArgEnv) (a : String) : Prop :=
  aliasName a
  ∨ (dictGet a env.project_attributes).isSome = true
  ∨ (dictGet a env.preset_params).isSome = true
  ∨ (dictGet a env.settings).isSome = true
  ∨ (dictGet a env.qsettings).isSome = true

theorem resolveArg_isSome_iff (env : ArgEnv) (a : String) :
    (resolveArg env a).isSome = true ↔ foundSomewhere env a := by
  rw [resolveArg, foundSomewhere, aliasName]
  split_ifs with h1 h2 h3 h4 h5 h6 h7
  · simp [h1]
  · simp [h2]
  · simp [h3]
  · simp [h4]
  · simp [h5]
  · simp [h6]
  · simp [h7]
  · cases hp : dictGet a env.project_attributes with
    | some v => simp [hp]
    | none =>
      cases hq : dictGet a env.preset_params with
      | some v => simp [hp, hq]
      | none =>
        cases hs : dictGet a env.settings with
        | some v => simp [hp, hq, hs]
        | none =>
          cases hqs : dictGet a env.qsettings with
          | some v => simp [h1, h2, h3, h4, h5, h6, h7, hp, hq, hs, hqs]
          | none => simp [h1, h2, h3, h4, h5, h6, h7, hp, hq, hs, hqs]

theorem get_arguments_loop_ok_iff (env : ArgEnv) :
    ∀ (l : List String) (acc : List (String × ArgVal)),
      (∃ kw, get_arguments_loop env l acc = Except.ok kw)
        ↔ ∀ a ∈ l, (resolveArg env a).isSome = true := by
  intro l
  induction l with
  | nil =>
    intro acc
    constructor
    · intro _ a ha
      simp at ha
    · intro _
      exact ⟨acc, rfl⟩
  | cons a rest ih =>
    intro acc
    rw [get_arguments_loop]
    cases hr : resolveArg env a with
    | none =>
      constructor
      · intro ⟨kw, hkw⟩
        simp at hkw
      · intro hall
        have := hall a (List.mem_cons_self _ _)
        rw [hr] at this
        simp at this
    | some v =>
      constructor
      · intro hok a' ha'
        rcases List.mem_cons.mp ha' with h' | h'
        · rw [h', hr]
          rfl
        · exact ((ih _).mp hok) a' h'
      · intro hall
        exact (ih _).mpr (fun a' ha' => hall a' (List.mem_cons_of_mem _ ha'))

theorem get_arguments_loop_get (env : ArgEnv) :
    ∀ (l : List String) (acc kw : List (String × ArgVal)),
      get_arguments_loop env l acc = Except.ok kw →
      ∀ a : String,
        (a ∈ l → dictGet a kw = resolveArg env a)
        ∧ (a ∉ l → dictGet a kw = dictGet a acc) := by
  intro l
  induction l with
  | nil =>
    intro acc kw hkw a
    injection hkw with hkw
    rw [← hkw]
    exact ⟨fun h => absurd h (List.not_mem_nil a), fun _ => rfl⟩
  | cons b rest ih =>
    intro acc kw hkw a
    rw [get_arguments_loop] at hkw
    cases hr : resolveArg env b with
    | none => rw [hr] at hkw; simp at hkw
    | some v =>
      rw [hr] at hkw
      constructor
      · intro ha
        rcases List.mem_cons.mp ha with h' | h'
        · subst h'
          by_cases hmem : a ∈ rest
          · exact (ih _ _ hkw a).1 hmem
          · rw [(ih _ _ hkw a).2 hmem, dictGet_dictInsert_self, hr]
        · exact (ih _ _ hkw a).1 h'
      · intro ha
        have hne : a ≠ b := fun h => ha (h ▸ List.mem_cons_self _ _)
        have hnr : a ∉ rest := fun h => ha (List.mem_cons_of_mem _ h)
        rw [(ih _ _ hkw a).2 hnr, dictGet_dictInsert_ne _ _ hne]

/-- The user's extra keyword arguments for one function (empty when the
function has none — the Python loop is skipped). -/
def addKwargsFor (env : ArgEnv) (fn : String) : List (String × Nat) :=
  (dictGet fn env.add_kwargs).getD []

/-- C10: `get_arguments` succeeds iff every parameter name (after dropping
`'args'`/`'kwargs'`) is an object alias or is found in the project
attributes, the preset parameters, the controller settings or the QSettings
keys — otherwise it raises `RuntimeError`; on success each name not touched
by `add_kwargs` is bound by the precedence chain (aliases, then project
attributes, then preset parameters, then settings, then QSettings), and the
user's `add_kwargs` for the function override or extend the bindings
afterwards. -/
theorem C10_get_arguments_resolution (env : ArgEnv) (fn : String)
    (argNamesRaw : List String) :
    ((∃ kw, get_arguments fn argNamesRaw env = Except.ok kw)
      ↔ ∀ a ∈ (argNamesRaw.erase "args").erase "kwargs", foundSomewhere env a)
    ∧ (∀ kw, get_arguments fn argNamesRaw env = Except.ok kw →
        ∀ a ∈ (argNamesRaw.erase "args").erase "kwargs",
          (∀ p ∈ addKwargsFor env fn, p.1 ≠ a) → dictGet a kw = resolveArg env a)
    ∧ (∀ kw, get_arguments fn argNamesRaw env = Except.ok kw →
        ((addKwargsFor env fn).map Prod.fst).Nodup →
        ∀ p ∈ addKwargsFor env fn, dictGet p.1 kw = some (ArgVal.value p.2))
    ∧ (∀ a, ¬aliasName a →
        (∀ v, dictGet a env.project_attributes = some v
          → resolveArg env a = some (ArgVal.value v))
        ∧ (dictGet a env.project_attributes = none →
            ∀ v, dictGet a env.preset_params = some v
              → resolveArg env a = some (ArgVal.value v))
        ∧ (dictGet a env.project_attributes = none → dictGet a env.preset_params = none →
            ∀ v, dictGet a env.settings = some v → resolveArg env a = some (ArgVal.value v))
        ∧ (dictGet a env.project_attributes = none → dictGet a env.preset_params = none →
            dictGet a env.settings = none →
            ∀ v, dictGet a env.qsettings = some v
              → resolveArg env a = some (ArgVal.value v)))
    ∧ resolveArg env "ct" = some ArgVal.ctRef
    ∧ resolveArg env "controller" = some ArgVal.ctRef
    ∧ resolveArg env "pr" = some ArgVal.prRef
    ∧ resolveArg env "project" = some ArgVal.prRef
    ∧ resolveArg env "meeg" = some ArgVal.objRef
    ∧ resolveArg env "fsmri" = some ArgVal.objRef
    ∧ resolveArg env "group" = some ArgVal.objRef := by
  have halias : ∀ a, ¬aliasName a →
      a ≠ "ct" ∧ a ≠ "controller" ∧ a ≠ "pr" ∧ a ≠ "project" ∧ a ≠ "meeg" ∧ a ≠ "fsmri"
        ∧ a ≠ "group" := by
    intro a ha
    rw [aliasName] at ha
    simp only [List.mem_cons, List.not_mem_nil, or_false, not_or] at ha
    exact ha
  refine ⟨?_, ?_, ?_, ?_, rfl, rfl, rfl, rfl, rfl, rfl, rfl⟩
  · rw [get_arguments]
    cases hl : get_arguments_loop env ((argNamesRaw.erase "args").erase "kwargs") [] with
    | error e =>
      constructor
      · intro ⟨kw, hkw⟩
        simp at hkw
      · intro hall
        exfalso
        have := (get_arguments_loop_ok_iff env _ []).mpr
          (fun a ha => (resolveArg_isSome_iff env a).mpr (hall a ha))
        rw [hl] at this
        obtain ⟨kw, hkw⟩ := this
        simp at hkw
    | ok kw₀ =>
      constructor
      · intro _ a ha
        have hex : ∃ kw, get_arguments_loop env
            ((argNamesRaw.erase "args").erase "kwargs") [] = Except.ok kw := ⟨kw₀, hl⟩
        exact (resolveArg_isSome_iff env a).mp
          ((get_arguments_loop_ok_iff env _ []).mp hex a ha)
      · intro _
        exact ⟨_, rfl⟩
  · intro kw hkw a ha hout
    rw [get_arguments] at hkw
    cases hl : get_arguments_loop env ((argNamesRaw.erase "args").erase "kwargs") [] with
    | error e =>
      rw [hl] at hkw
      simp at hkw
    | ok kw₀ =>
      rw [hl] at hkw
      injection hkw with hkw
      rw [← hkw]
      have hbase : dictGet a kw₀ = resolveArg env a :=
        (get_arguments_loop_get env _ [] kw₀ hl a).1 ha
      cases haf : dictGet fn env.add_kwargs with
      | none => exact hbase
      | some kws =>
        have hne : ∀ p ∈ kws, p.1 ≠ a := by
          intro p hp
          apply hout
          rw [addKwargsFor, haf]
          exact hp
        rw [dictGet_foldl_dictInsert_of_ne _ _ _ _ hne]
        exact hbase
  · intro kw hkw hnd p hp
    rw [get_arguments] at hkw
    cases hl : get_arguments_loop env ((argNamesRaw.erase "args").erase "kwargs") [] with
    | error e =>
      rw [hl] at hkw
      simp at hkw
    | ok kw₀ =>
      rw [hl] at hkw
      injection hkw with hkw
      rw [← hkw]
      cases haf : dictGet fn env.add_kwargs with
      | none =>
        rw [addKwargsFor, haf] at hp
        simp at hp
      | some kws =>
        rw [addKwargsFor, haf] at hp hnd
        exact dictGet_foldl_dictInsert_nodup _ kws kw₀ hnd p hp
  · intro a hna
    obtain ⟨h1, h2, h3, h4, h5, h6, h7⟩ := halias a hna
    refine ⟨?_, ?_, ?_, ?_⟩
    · intro v hv
      rw [resolveArg, if_neg h1, if_neg h2, if_neg h3, if_neg h4, if_neg h5, if_neg h6,
        if_neg h7, hv]
    · intro hp v hv
      rw [resolveArg, if_neg h1, if_neg h2, if_neg h3, if_neg h4, if_neg h5, if_neg h6,
        if_neg h7, hp, hv]
    · intro hp hq v hv
      rw [resolveArg, if_neg h1, if_neg h2, if_neg h3, if_neg h4, if_neg h5, if_neg h6,
        if_neg h7, hp, hq, hv]
    · intro hp hq hs v hv
      rw [resolveArg, if_neg h1, if_neg h2, if_neg h3, if_neg h4, if_neg h5, if_neg h6,
        if_neg h7, hp, hq, hs, hv]

/-- A concrete argument environment: `x` is both a project attribute and a
preset parameter, `y` only a preset parameter, and the user adds `z` for
`myfunc`. -/
def env10 : ArgEnv where
  project_attributes := [("x", 1)]
  preset_params := [("x", 2), ("y", 3)]
  settings := []
  qsettings := []
  add_kwargs := [("myfunc", [("z", 9)])]

/-- Witness for C10: the project attribute wins for `x`, the preset binds
`y`, and the add-kwarg `z` is appended. -/
theorem C10_witness :
    get_arguments "myfunc" ["ct", "x", "y", "args"] env10
      = Except.ok [("ct", ArgVal.ctRef), ("x", ArgVal.value 1), ("y", ArgVal.value 3),
          ("z", ArgVal.value 9)]
    ∧ dictGet "x" [("ct", ArgVal.ctRef), ("x", ArgVal.value 1), ("y", ArgVal.value 3),
          ("z", ArgVal.value 9)] = some (ArgVal.value 1) := by
  refine ⟨rfl, ?_⟩
  have h := (C10_get_arguments_resolution env10 "myfunc" ["ct", "x", "y", "args"]).2.1
    [("ct", ArgVal.ctRef), ("x", ArgVal.value 1), ("y", ArgVal.value 3),
      ("z", ArgVal.value 9)] rfl "x" (by decide) (by decide)
  rw [h]
  decide
